import Mathlib

/-!
# Verification of the scuzzie resource graph and config codec

Shallow embedding of `src/scuzzie/resources.py` (the Comic / Volume / Page
resource graph) and `src/scuzzie/comic.py` (the load/save config codec), with
theorems checking the repository's specification against the code.

Modelling conventions:
* Python mutable objects become explicit state passing: a method that mutates
  its receiver (or an argument) returns the updated value alongside its result.
* Python exceptions become `Except ScuzzieErr`.
* Filesystem paths (`pathlib.Path`) become `FPath := List String`, a list of
  components.  The filesystem itself is an explicit `FS` state: a list of
  existing directories (in creation order, which also models `iterdir`
  enumeration), an association list from paths to parsed TOML documents, and
  an oracle set of existing asset files used by the pydantic validators
  (`models.validate_asset_exists` collapses its exists/is-file pair of checks
  into a single membership test here).
* The external `slugify` library is modelled by its documented contract on
  ASCII input: lowercase, non-alphanumeric runs collapsed to single hyphens,
  no leading or trailing hyphen.
-/

namespace Scuzzie

/-- Splits a character stream into maximal alphanumeric words, lowercased;
`cur` accumulates the current word in reverse. -/
def slugWords : List Char → List Char → List (List Char)
  | [], cur => if cur = [] then [] else [cur.reverse]
  | c :: rest, cur =>
    if c.isAlpha || c.isDigit then slugWords rest (c.toLower :: cur)
    else if cur = [] then slugWords rest []
    else cur.reverse :: slugWords rest []

/-- Joins words with single hyphens. -/
def joinHyphen : List (List Char) → List Char
  | [] => []
  | [w] => w
  | w :: ws => w ++ '-' :: joinHyphen ws

/-- `slugify` from the python-slugify dependency, modelled on ASCII input:
lowercase the string, collapse every non-alphanumeric run into a single
hyphen, no leading or trailing hyphen. -/
def slugify (s : String) : String :=
  String.mk (joinHyphen (slugWords s.data []))

/-- Filesystem paths as component lists (`pathlib.Path` in the source). -/
abbrev FPath := List String

/-- Lookup in an association list; models Python `dict.__getitem__` /
`dict.get` on insertion-ordered dicts represented as `List (κ × α)`. -/
def lookupA {κ α : Type} [DecidableEq κ] (m : List (κ × α)) (k : κ) : Option α :=
  (m.find? (fun e => e.1 = k)).map (fun e => e.2)

/-- Python `str.strip("/")`: remove leading and trailing slash characters. -/
def stripSlashes (s : String) : String :=
  String.mk (((s.data.dropWhile (fun c => c = '/')).reverse.dropWhile
    (fun c => c = '/')).reverse)

/-- The error taxonomy of `src/scuzzie/exc.py`.  `scuzzieError` is the base
`ScuzzieError`; the three config errors carry the `reason` passed to
`ScuzzieConfigError.__init__`.  `validationError` models a pydantic
`ValueError` escaping uncaught (as in the write path, which wraps no
try/except around model construction), and `keyError` models a Python
`KeyError` from an unresolvable slug lookup in a generator. -/
inductive ScuzzieErr : Type where
  | scuzzieError (msg : String)
  | comicConfigError (reason : String)
  | volumeConfigError (reason : String)
  | pageConfigError (reason : String)
  | validationError (msg : String)
  | keyError (key : String)
deriving DecidableEq, Repr

/-- The information a `Page` keeps about its owning volume (`page.volume` in
the source is a reference to the whole `Volume` object; the code only ever
reads its `slug` and `path`, both of which are never reassigned after
`Volume.__init__`, so the reference is modelled by this snapshot). -/
structure VolRef : Type where
  slug : String
  path : Option FPath
deriving DecidableEq, Repr

/-- `resources.Page`.  `slug` is computed from `title` by `__init__`;
`volume` starts out `None`. -/
structure Page : Type where
  path : Option FPath
  title : String
  slug : String
  image : String
  volume : Option VolRef
deriving DecidableEq, Repr

/-- `Page.__init__(path=…, title=…, image=…)`. -/
def Page.init (path : Option FPath) (title : String) (image : String) : Page :=
  { path := path, title := title, slug := slugify title, image := image,
    volume := none }

/-- `Page.url`: raises unless the page is in a volume, else
`/volumes/<volume.slug>/pages/<slug>.html`. -/
def Page.url (p : Page) : Except ScuzzieErr String :=
  match p.volume with
  | none => .error (.scuzzieError
      "Attempt to get path URL but path is not in a volume.")
  | some vr => .ok ("/volumes/" ++ vr.slug ++ "/pages/" ++ p.slug ++ ".html")

/-- `resources.Volume`.  `pages` is an insertion-ordered dict modelled as an
association list. -/
structure Volume : Type where
  path : Option FPath
  title : String
  slug : String
  image : String
  page_slugs : List String
  pages : List (String × Page)
deriving DecidableEq, Repr

/-- `Volume.__init__(path=…, title=…, image=…, page_slugs=…)`. -/
def Volume.init (path : Option FPath) (title : String) (image : String)
    (page_slugs : List String) : Volume :=
  { path := path, title := title, slug := slugify title, image := image,
    page_slugs := page_slugs, pages := [] }

/-- The snapshot a page records when `page.volume = self` runs. -/
def Volume.ref (v : Volume) : VolRef := { slug := v.slug, path := v.path }

/-- `Volume.add_page`: raise if the slug is already bound in `pages`,
otherwise set the page's back-reference, append the slug to `page_slugs` if
absent, and bind the page in `pages`.  Returns the updated volume together
with the updated page object (the source mutates both in place). -/
def Volume.add_page (v : Volume) (page : Page) :
    Except ScuzzieErr (Volume × Page) :=
  if (lookupA v.pages page.slug).isSome then
    .error (.scuzzieError
      ("Page " ++ page.title ++ " already exists in " ++ v.title))
  else
    let page := { page with volume := some v.ref }
    let slugs :=
      if page.slug ∈ v.page_slugs then v.page_slugs
      else v.page_slugs ++ [page.slug]
    .ok ({ v with page_slugs := slugs, pages := v.pages ++ [(page.slug, page)] },
         page)

/-- Resolves each slug of an order list in an association map, in list
order; `none` models the Python `KeyError` a consumer of the generator hits
on the first unresolvable slug. -/
def resolveAll {α : Type} (slugs : List String) (m : List (String × α)) :
    Option (List α) :=
  match slugs with
  | [] => some []
  | s :: rest =>
    match lookupA m s with
    | none => none
    | some x =>
      match resolveAll rest m with
      | none => none
      | some xs => some (x :: xs)

/-- `Volume.each_page`: yield `pages[slug]` for each slug in `page_slugs`. -/
def Volume.each_page (v : Volume) : Option (List Page) :=
  resolveAll v.page_slugs v.pages

/-- `resources.Comic`. -/
structure Comic : Type where
  path : Option FPath
  name : String
  placeholder : String
  volume_slugs : List String
  volumes : List (String × Volume)
deriving DecidableEq, Repr

/-- `Comic.__init__(path=…, name=…, placeholder=…, volume_slugs=…)`. -/
def Comic.init (path : Option FPath) (name : String) (placeholder : String)
    (volume_slugs : List String) : Comic :=
  { path := path, name := name, placeholder := placeholder,
    volume_slugs := volume_slugs, volumes := [] }

/-- `Comic.each_volume`, analogous to `Volume.each_page`. -/
def Comic.each_volume (c : Comic) : Option (List Volume) :=
  resolveAll c.volume_slugs c.volumes

/-- `Comic.add_volume`. -/
def Comic.add_volume (c : Comic) (v : Volume) : Except ScuzzieErr Comic :=
  if (lookupA c.volumes v.slug).isSome then
    .error (.scuzzieError
      ("Volume " ++ v.title ++ " already exists in " ++ c.name))
  else
    .ok { c with
      volume_slugs :=
        if v.slug ∈ c.volume_slugs then c.volume_slugs
        else c.volume_slugs ++ [v.slug],
      volumes := c.volumes ++ [(v.slug, v)] }

/-- `Comic.create_volume`: build a virtual volume, add it, and return the
updated comic together with the volume object. -/
def Comic.create_volume (c : Comic) (title : String) (image : String) :
    Except ScuzzieErr (Comic × Volume) :=
  (c.add_volume (Volume.init none title image [])).map
    (fun c => (c, Volume.init none title image []))

/-- `Comic.create_page`: build a virtual page (image defaulting to the
comic's placeholder) and add it to the given volume. -/
def Comic.create_page (c : Comic) (title : String) (image : Option String)
    (volume : Volume) : Except ScuzzieErr (Volume × Page) :=
  let page := Page.init none title (image.getD c.placeholder)
  volume.add_page page

/-- Models the Python aliasing between a `Volume` object handed out by
`create_volume` and the entry in `comic.volumes`: an in-place mutation of the
volume is visible through the comic's map, which in the explicit-state
embedding is re-installing the updated volume at its slug. -/
def Comic.setVolume (c : Comic) (v : Volume) : Comic :=
  let vols := c.volumes.map (fun e => if e.1 = v.slug then (v.slug, v) else e)
  { c with volumes := vols }

theorem lookupA_nil {κ α : Type} [DecidableEq κ] (k : κ) :
    lookupA ([] : List (κ × α)) k = none := rfl

theorem lookupA_cons {κ α : Type} [DecidableEq κ] (a : κ) (b : α)
    (m : List (κ × α)) (k : κ) :
    lookupA ((a, b) :: m) k = if a = k then some b else lookupA m k := by
  by_cases h : a = k <;> simp [lookupA, List.find?_cons, h]

theorem lookupA_append {κ α : Type} [DecidableEq κ] (m₁ m₂ : List (κ × α))
    (k : κ) :
    lookupA (m₁ ++ m₂) k =
      match lookupA m₁ k with
      | some v => some v
      | none => lookupA m₂ k := by
  induction m₁ with
  | nil => simp [lookupA_nil]
  | cons e m ih =>
    rcases e with ⟨a, b⟩
    by_cases h : a = k <;> simp [lookupA_cons, h, ih]

theorem lookupA_eq_none_iff {κ α : Type} [DecidableEq κ]
    (m : List (κ × α)) (k : κ) :
    lookupA m k = none ↔ k ∉ m.map Prod.fst := by
  induction m with
  | nil => simp [lookupA_nil]
  | cons e m ih =>
    rcases e with ⟨a, b⟩
    by_cases h : a = k
    · subst h; simp [lookupA_cons]
    · rw [lookupA_cons, if_neg h, ih]
      constructor
      · intro hm hmem
        rcases List.mem_cons.1 hmem with heq | hmem2
        · exact h heq.symm
        · exact hm hmem2
      · intro hm hsm
        exact hm (List.mem_cons_of_mem a hsm)

theorem lookupA_self_of_nodup {κ α : Type} [DecidableEq κ]
    (m : List (κ × α)) (hn : (m.map Prod.fst).Nodup) :
    ∀ e ∈ m, lookupA m e.1 = some e.2 := by
  induction m with
  | nil => simp
  | cons f m ih =>
    rcases f with ⟨a, b⟩
    simp only [List.map_cons, List.nodup_cons] at hn
    intro e he
    rcases List.mem_cons.1 he with h | h
    · subst h; simp [lookupA_cons]
    · have hne : a ≠ e.1 := by
        intro hak
        exact hn.1 (hak ▸ List.mem_map_of_mem Prod.fst h)
      simp [lookupA_cons, hne]
      exact ih hn.2 e h

/-- A parsed TOML document, specialised to the three record shapes the codec
reads and writes (`models.Comic`, `models.Volume`, `models.Page`); any other
document shape would fail pydantic validation, which the `field required`
error branches of the `_from_config` functions model. -/
inductive Doc : Type where
  | comicDoc (name : String) (placeholder : String) (volumes : List String)
  | volumeDoc (title : String) (image : String) (pages : List String)
  | pageDoc (title : String) (image : String)
deriving DecidableEq, Repr

/-- Explicit filesystem state.  `dirs` lists existing directories in creation
order (which also models `Path.iterdir` enumeration order); `files` maps paths
of TOML files to their parsed contents; `assets` is the oracle consulted by
`models.validate_asset_exists`: the pairs of comic root and stripped relative
path for which the asset exists and is a regular file. -/
structure FS : Type where
  dirs : List FPath
  files : List (FPath × Doc)
  assets : List (FPath × String)
deriving DecidableEq, Repr

/-- `Path.mkdir(exist_ok=True)` for a single directory. -/
def FS.mkdir1 (fs : FS) (p : FPath) : FS :=
  if p ∈ fs.dirs then fs else { fs with dirs := fs.dirs ++ [p] }

/-- The proper ancestors of `p` (shortest first) followed by `p` itself. -/
def ancestors (p : FPath) : List FPath :=
  (List.range p.length).map (fun i => p.take (i + 1))

/-- `comic._ensure_path`: `path.mkdir(parents=True, exist_ok=True)`. -/
def FS.mkdirp (fs : FS) (p : FPath) : FS :=
  (ancestors p).foldl FS.mkdir1 fs

/-- `Path.iterdir` restricted to subdirectories (the codec only ever creates
directories inside the trees it iterates, so this matches the source's use). -/
def FS.listdir (fs : FS) (p : FPath) : List FPath :=
  fs.dirs.filter (fun d => d.length = p.length + 1 && d.take p.length = p)

/-- Writing (or overwriting) one document at a path. -/
def FS.setFile (fs : FS) (p : FPath) (d : Doc) : FS :=
  if (lookupA fs.files p).isSome then
    { fs with files := fs.files.map (fun e => if e.1 = p then (p, d) else e) }
  else
    { fs with files := fs.files ++ [(p, d)] }

/-- `models.validate_asset_exists` with context `ctx`: the path string is
stripped of surrounding slashes and resolved under `<ctx>/assets/`; exists
and is-a-file are one oracle query here. -/
def validate_asset_exists (ctx : FPath) (p : String) (fs : FS) : Prop :=
  (ctx, stripSlashes p) ∈ fs.assets

instance (ctx : FPath) (p : String) (fs : FS) :
    Decidable (validate_asset_exists ctx p fs) := by
  unfold validate_asset_exists; infer_instance

/-- `comic._try_read_toml`: look the file up, or raise the supplied config
error type with the file-may-not-exist reason. -/
def _try_read_toml (p : FPath) (mkErr : String → ScuzzieErr) (fs : FS) :
    Except ScuzzieErr Doc :=
  match lookupA fs.files p with
  | some d => .ok d
  | none => .error (mkErr
      ("Failed to load file from " ++ String.intercalate "/" p ++
       "; it may not exist."))

/-- `comic._try_write_toml`: ensure the parent directory exists, then write
the document (path-valued fields are already strings in this model). -/
def _try_write_toml (p : FPath) (d : Doc) (fs : FS) : FS :=
  (fs.mkdirp p.dropLast).setFile p d

/-- Python exception propagation for a pure sub-expression: if `x` raised,
the surrounding call re-raises it with the filesystem as it stands;
otherwise continue with the value. -/
def stepE {α β : Type} (fs : FS) (x : Except ScuzzieErr α)
    (k : α → FS × Except ScuzzieErr β) : FS × Except ScuzzieErr β :=
  match x with
  | .error e => (fs, .error e)
  | .ok a => k a

/-- Python exception propagation for a state-passing sub-call: a raise
aborts with that call's filesystem; otherwise continue with its value and
filesystem. -/
def stepS {α β : Type} (x : FS × Except ScuzzieErr α)
    (k : α → FS → FS × Except ScuzzieErr β) : FS × Except ScuzzieErr β :=
  match x with
  | (fs, .error e) => (fs, .error e)
  | (fs, .ok a) => k a fs

@[simp]
theorem stepE_ok {α β : Type} (fs : FS) (a : α)
    (k : α → FS × Except ScuzzieErr β) : stepE fs (.ok a) k = k a := rfl

@[simp]
theorem stepE_error {α β : Type} (fs : FS) (e : ScuzzieErr)
    (k : α → FS × Except ScuzzieErr β) :
    stepE fs (.error e) k = (fs, .error e) := rfl

@[simp]
theorem stepS_ok {α β : Type} (fs : FS) (a : α)
    (k : α → FS → FS × Except ScuzzieErr β) :
    stepS (fs, .ok a) k = k a fs := rfl

@[simp]
theorem stepS_error {α β : Type} (fs : FS) (e : ScuzzieErr)
    (k : α → FS → FS × Except ScuzzieErr β) :
    stepS (fs, .error e) k = (fs, .error e) := rfl

theorem stepS_fst_of_fst_eq {α β : Type} (x : FS × Except ScuzzieErr α)
    (k : α → FS → FS × Except ScuzzieErr β)
    (h : ∀ a, (k a x.1).1 = x.1) : (stepS x k).1 = x.1 := by
  rcases x with ⟨fs, r⟩
  cases r with
  | error e => rfl
  | ok a => exact h a

/-- `comic._read_comic_config`. -/
def _read_comic_config (path : FPath) (fs : FS) : Except ScuzzieErr Doc :=
  _try_read_toml (path ++ ["comic.toml"]) ScuzzieErr.comicConfigError fs

/-- `comic._read_volume_config`. -/
def _read_volume_config (path : FPath) (fs : FS) : Except ScuzzieErr Doc :=
  _try_read_toml (path ++ ["volume.toml"]) ScuzzieErr.volumeConfigError fs

/-- `comic._read_page_config`. -/
def _read_page_config (path : FPath) (fs : FS) : Except ScuzzieErr Doc :=
  _try_read_toml (path ++ ["page.toml"]) ScuzzieErr.pageConfigError fs

/-- `comic._comic_from_config`: validate through `models.Comic` (context is
the comic root being read) and build the in-memory `Comic`. -/
def _comic_from_config (config : Doc) (path : FPath) (fs : FS) :
    Except ScuzzieErr Comic :=
  match config with
  | .comicDoc name placeholder volumes =>
      if validate_asset_exists path placeholder fs then
        .ok (Comic.init (some path) name placeholder volumes)
      else
        .error (.comicConfigError ("Path does not exist: " ++ placeholder))
  | _ => .error (.comicConfigError "field required")

/-- `comic._volume_from_config`: validate through `models.Volume` (context is
the comic root) and build a `Volume` whose `path` is the directory being
read; note `Volume.init` derives the slug from the loaded title. -/
def _volume_from_config (config : Doc) (path : FPath) (comic_path : FPath)
    (fs : FS) : Except ScuzzieErr Volume :=
  match config with
  | .volumeDoc title image pages =>
      if validate_asset_exists comic_path image fs then
        .ok (Volume.init (some path) title image pages)
      else
        .error (.volumeConfigError ("Path does not exist: " ++ image))
  | _ => .error (.volumeConfigError "field required")

/-- `comic._page_from_config` (the source wraps the pydantic failure in
`ScuzzieVolumeConfigError`, not the page variant). -/
def _page_from_config (config : Doc) (path : FPath) (comic_path : FPath)
    (fs : FS) : Except ScuzzieErr Page :=
  match config with
  | .pageDoc title image =>
      if validate_asset_exists comic_path image fs then
        .ok (Page.init (some path) title image)
      else
        .error (.volumeConfigError ("Path does not exist: " ++ image))
  | _ => .error (.volumeConfigError "field required")

/-- The `for page_path in pages_path.iterdir()` loop body of `_read_pages`:
read each page config, build the page, add it to the volume. -/
def _read_pages_loop (paths : List FPath) (into : Volume) (comic_path : FPath)
    (fs : FS) : FS × Except ScuzzieErr Volume :=
  match paths with
  | [] => (fs, .ok into)
  | p :: rest =>
    stepE fs (_read_page_config p fs) fun config =>
    stepE fs (_page_from_config config p comic_path fs) fun page =>
    stepE fs (into.add_page page) fun vp =>
    _read_pages_loop rest vp.1 comic_path fs

/-- The reason string of the referential-integrity failure in `_read_pages`. -/
def missingPagesMsg (title : String) (missing : List String) : String :=
  "Volume \"" ++ title ++ "\" lists the following pages " ++
  "that don\x27t seem to exist: " ++ String.intercalate ", " missing

/-- `comic._read_pages`: refuse virtual volumes, ensure the `pages/`
directory, load every page subdirectory, then fail if any slug listed in
`page_slugs` has no loaded page. -/
def _read_pages (into : Volume) (comic_path : FPath) (fs : FS) :
    FS × Except ScuzzieErr Volume :=
  match into.path with
  | none => (fs, .error (.scuzzieError
      ("Attempted to read pages into a virtual volume. " ++
       "This should never happen.")))
  | some vpath =>
    let fs := fs.mkdirp (vpath ++ ["pages"])
    stepS (_read_pages_loop (fs.listdir (vpath ++ ["pages"])) into comic_path fs)
      fun vol fs =>
        let missing :=
          vol.page_slugs.filter (fun s => (lookupA vol.pages s).isNone)
        if missing.isEmpty then (fs, .ok vol)
        else
          (fs, .error (.volumeConfigError (missingPagesMsg vol.title missing)))

/-- The `for volume_path in volumes_path.iterdir()` loop body of
`_read_volumes`. -/
def _read_volumes_loop (paths : List FPath) (into : Comic)
    (comic_path : FPath) (fs : FS) : FS × Except ScuzzieErr Comic :=
  match paths with
  | [] => (fs, .ok into)
  | p :: rest =>
    stepE fs (_read_volume_config p fs) fun config =>
    stepE fs (_volume_from_config config p comic_path fs) fun volume =>
    stepS (_read_pages volume comic_path fs) fun volume fs =>
    stepE fs (into.add_volume volume) fun into =>
    _read_volumes_loop rest into comic_path fs

/-- `comic._read_volumes`. -/
def _read_volumes (into : Comic) (comic_path : FPath) (fs : FS) :
    FS × Except ScuzzieErr Comic :=
  match into.path with
  | none => (fs, .error (.scuzzieError
      ("Attempted to read volumes into a virtual comic. " ++
       "This should never happen.")))
  | some cpath =>
    let fs := fs.mkdirp (cpath ++ ["volumes"])
    _read_volumes_loop (fs.listdir (cpath ++ ["volumes"])) into comic_path fs

/-- `comic.read_comic`. -/
def read_comic (path : FPath) (fs : FS) : FS × Except ScuzzieErr Comic :=
  stepE fs (_read_comic_config path fs) fun config =>
  stepE fs (_comic_from_config config path fs) fun comic =>
  match comic.path with
  | none => (fs, .error (.scuzzieError "Attempted to read virtual comic."))
  | some cpath => _read_volumes comic cpath fs

/-- The reason of the `_ensure_comic_has_path` contract error. -/
def ensurePathMsg : String :=
  "One (and only one) of \x60comic.path\x60 and \x60path\x60 " ++
  "must contain a value."

/-- `comic._ensure_comic_has_path`: exactly one of the comic's own path and
the explicit argument must be present; when only the argument is, it is
stored on the comic (mutation). -/
def _ensure_comic_has_path (comic : Comic) (path : Option FPath) :
    Except ScuzzieErr (Comic × FPath) :=
  match comic.path, path with
  | some cpath, none => .ok (comic, cpath)
  | none, some p => .ok ({ comic with path := some p }, p)
  | _, _ => .error (.scuzzieError ensurePathMsg)

/-- `comic._write_comic_config`: validation through `models.Comic` (context
`comic.path`; a failure is an uncaught pydantic `ValueError` here), then the
TOML write. -/
def _write_comic_config (comic : Comic) (path : FPath) (fs : FS) :
    FS × Except ScuzzieErr Unit :=
  match comic.path with
  | none => (fs, .error (.scuzzieError
      "Attempted to write virtual comic. This should never happen."))
  | some cpath =>
    if validate_asset_exists cpath comic.placeholder fs then
      (_try_write_toml (path ++ ["comic.toml"])
        (.comicDoc comic.name comic.placeholder comic.volume_slugs) fs,
       .ok ())
    else
      (fs, .error (.validationError
        ("Path does not exist: " ++ comic.placeholder)))

/-- `comic._write_volume_config`. -/
def _write_volume_config (volume : Volume) (comic : Comic) (path : FPath)
    (fs : FS) : FS × Except ScuzzieErr Unit :=
  match comic.path with
  | none => (fs, .error (.scuzzieError
      ("Attempted to write volume with a virtual comic. " ++
       "This should never happen.")))
  | some cpath =>
    if validate_asset_exists cpath volume.image fs then
      (_try_write_toml (path ++ ["volumes", volume.slug, "volume.toml"])
        (.volumeDoc volume.title volume.image volume.page_slugs) fs,
       .ok ())
    else
      (fs, .error (.validationError ("Path does not exist: " ++ volume.image)))

/-- `comic._write_page`: requires the page's volume link and that volume's
path; otherwise `ScuzzieVolumeConfigError`. -/
def _write_page (page : Page) (comic : Comic) (fs : FS) :
    FS × Except ScuzzieErr Unit :=
  match comic.path with
  | none => (fs, .error (.scuzzieError
      ("Attempted to write page with a virtual comic. " ++
       "This should never happen.")))
  | some cpath =>
    match page.volume with
    | some vr =>
      match vr.path with
      | some vpath =>
        if validate_asset_exists cpath page.image fs then
          (_try_write_toml (vpath ++ ["pages", page.slug, "page.toml"])
            (.pageDoc page.title page.image) fs,
           .ok ())
        else
          (fs, .error (.validationError
            ("Path does not exist: " ++ page.image)))
      | none => (fs, .error (.volumeConfigError
          "Tried to save page into null volume or volume with a null path."))
    | none => (fs, .error (.volumeConfigError
        "Tried to save page into null volume or volume with a null path."))

/-- The `for page in volume.each_page()` loop of `_write_volume`: the
generator looks each slug up as it is consumed; a missing slug is a Python
`KeyError` after the earlier pages were already written. -/
def _write_volume_pages (slugs : List String) (pages : List (String × Page))
    (comic : Comic) (fs : FS) : FS × Except ScuzzieErr Unit :=
  match slugs with
  | [] => (fs, .ok ())
  | s :: rest =>
    match lookupA pages s with
    | none => (fs, .error (.keyError s))
    | some page =>
      stepS (_write_page page comic fs) fun _ fs =>
      _write_volume_pages rest pages comic fs

/-- `comic._write_volume`. -/
def _write_volume (volume : Volume) (comic : Comic) (path : FPath) (fs : FS) :
    FS × Except ScuzzieErr Unit :=
  stepS (_write_volume_config volume comic path fs) fun _ fs =>
  _write_volume_pages volume.page_slugs volume.pages comic fs

/-- The `for volume in comic.each_volume()` loop of `_write_volumes`. -/
def _write_volumes_loop (slugs : List String)
    (volumes : List (String × Volume)) (comic : Comic) (path : FPath)
    (fs : FS) : FS × Except ScuzzieErr Unit :=
  match slugs with
  | [] => (fs, .ok ())
  | s :: rest =>
    match lookupA volumes s with
    | none => (fs, .error (.keyError s))
    | some volume =>
      stepS (_write_volume volume comic path fs) fun _ fs =>
      _write_volumes_loop rest volumes comic path fs

/-- `comic._write_volumes`. -/
def _write_volumes (comic : Comic) (path : FPath) (fs : FS) :
    FS × Except ScuzzieErr Unit :=
  _write_volumes_loop comic.volume_slugs comic.volumes comic path fs

/-- The body of `write_comic` after `_ensure_comic_has_path` succeeded. -/
def _write_comic_body (comic : Comic) (path : FPath) (fs : FS) :
    Comic × FS × Except ScuzzieErr Unit :=
  match _write_comic_config comic path fs with
  | (fs, .error e) => (comic, fs, .error e)
  | (fs, .ok _) =>
    match _write_volumes comic path fs with
    | (fs, r) => (comic, fs, r)

/-- `comic.write_comic`: resolve the target directory (possibly mutating the
comic), then write the comic config and every volume.  Returns the comic as
mutated, the filesystem as of the return or raise, and the outcome. -/
def write_comic (comic : Comic) (path : Option FPath) (fs : FS) :
    Comic × FS × Except ScuzzieErr Unit :=
  match _ensure_comic_has_path comic path with
  | .error e => (comic, fs, .error e)
  | .ok (comic, path) => _write_comic_body comic path fs

/-! ## Claim theorems -/

/-- C2 (corrected): `Volume.add_page` sets `page.volume` to the receiving
volume on every successful call, including when the page already carries a
volume back-reference from an earlier add: adding the same page object to a
second volume whose `pages` map does not bind the slug succeeds and rebinds
`page.volume` to the second volume instead of failing. -/
theorem C2_add_page_rebinds (v1 v2 : Volume) (p : Page)
    (h1 : lookupA v1.pages p.slug = none)
    (h2 : lookupA v2.pages p.slug = none) :
    ∃ r1 : Volume × Page, v1.add_page p = .ok r1 ∧ r1.2.volume = some v1.ref ∧
      ∃ r2 : Volume × Page, v2.add_page r1.2 = .ok r2 ∧
        r2.2.volume = some v2.ref := by
  have e1 : v1.add_page p =
      .ok ({ v1 with
              page_slugs :=
                if p.slug ∈ v1.page_slugs then v1.page_slugs
                else v1.page_slugs ++ [p.slug],
              pages := v1.pages ++ [(p.slug, { p with volume := some v1.ref })] },
            { p with volume := some v1.ref }) := by
    unfold Volume.add_page
    rw [h1]
    rfl
  have e2 : v2.add_page { p with volume := some v1.ref } =
      .ok ({ v2 with
              page_slugs :=
                if p.slug ∈ v2.page_slugs then v2.page_slugs
                else v2.page_slugs ++ [p.slug],
              pages := v2.pages ++ [(p.slug, { p with volume := some v2.ref })] },
            { p with volume := some v2.ref }) := by
    unfold Volume.add_page
    rw [show ({ p with volume := some v1.ref } : Page).slug = p.slug from rfl, h2]
    rfl
  exact ⟨_, e1, rfl, _, e2, rfl⟩

/-- C2 counterexample: the claim as stated says a second `add_page` on the
same page object "fails rather than silently rebinding `page.volume`"; on the
code, adding the page to a second volume succeeds and its `volume` field ends
up pointing at the second volume. -/
theorem C2_counterexample :
    (((Volume.init none "V One" "img" []).add_page
        (Page.init none "P" "img")).bind
      (fun r1 => ((Volume.init none "V Two" "img" []).add_page r1.2).map
        (fun r2 => r2.2.volume)))
    = .ok (some { slug := "v-two", path := none }) := by rfl

/-- C4 (confirmed): adding a page whose slug is already bound in the
volume's `pages` map fails with the duplicate-resource `ScuzzieError`; the
failure happens before any mutation, so in this explicit-state embedding no
updated volume or page is produced — `page_slugs`, `pages` and the page's
`volume` field are exactly as before the call. -/
theorem C4_add_page_duplicate_atomic (v : Volume) (p q : Page)
    (h : lookupA v.pages p.slug = some q) :
    v.add_page p = .error (.scuzzieError
      ("Page " ++ p.title ++ " already exists in " ++ v.title)) := by
  unfold Volume.add_page
  rw [h]
  rfl

/-- Witness for C4 at a concrete volume already binding slug `p`. -/
theorem C4_add_page_duplicate_atomic_witness :
    (Volume.mk none "V" "v" "img" ["p"]
      [("p", Page.init none "P" "img")]).add_page (Page.init none "P" "img")
    = .error (.scuzzieError ("Page " ++ "P" ++ " already exists in " ++ "V")) :=
  C4_add_page_duplicate_atomic _ _ (Page.init none "P" "img") rfl

/-- C6 (confirmed): `Page.url` on a page not yet in a volume raises the
not-linked `ScuzzieError`; after a successful `Volume.add_page` into `v`, the
updated page's `url` is exactly `/volumes/<v.slug>/pages/<page.slug>.html`. -/
theorem C6_page_url (p : Page) (v : Volume) :
    (p.volume = none → p.url = .error (.scuzzieError
      "Attempt to get path URL but path is not in a volume.")) ∧
    (∀ v' p', v.add_page p = .ok (v', p') →
      p'.url = .ok ("/volumes/" ++ v.slug ++ "/pages/" ++ p.slug ++ ".html")) := by
  constructor
  · intro h
    unfold Page.url
    rw [h]
  · intro v' p' h
    unfold Volume.add_page at h
    by_cases hc : (lookupA v.pages p.slug).isSome
    · rw [if_pos hc] at h
      cases h
    · rw [if_neg hc] at h
      have hpair := Except.ok.inj h
      have hp' : p' = { p with volume := some v.ref } :=
        (congrArg Prod.snd hpair).symm
      subst hp'
      rfl

/-- Witness for C6: both halves at concrete pages and volumes. -/
theorem C6_page_url_witness :
    (Page.init none "P" "img").url = .error (.scuzzieError
      "Attempt to get path URL but path is not in a volume.") ∧
    ∃ r : Volume × Page,
      (Volume.init none "V One" "img" []).add_page (Page.init none "P" "img")
        = .ok r ∧
      r.2.url = .ok ("/volumes/" ++ "v-one" ++ "/pages/" ++ "p" ++ ".html") := by
  have h := C6_page_url (Page.init none "P" "img")
    (Volume.init none "V One" "img" [])
  refine ⟨h.1 rfl, ?_⟩
  have e : (Volume.init none "V One" "img" []).add_page
      (Page.init none "P" "img")
      = .ok (({ Volume.init none "V One" "img" [] with
                page_slugs := ["p"],
                pages := [("p", { Page.init none "P" "img" with
                  volume := some (Volume.init none "V One" "img" []).ref })] }),
             { Page.init none "P" "img" with
                volume := some (Volume.init none "V One" "img" []).ref }) := by
    rfl
  exact ⟨_, e, h.2 _ _ e⟩

theorem resolveAll_spec {α : Type} (l : List String) (m : List (String × α))
    (h : ∀ s ∈ l, (lookupA m s).isSome) :
    ∃ xs, resolveAll l m = some xs ∧
      List.Forall₂ (fun s x => lookupA m s = some x) l xs := by
  induction l with
  | nil => exact ⟨[], rfl, .nil⟩
  | cons a l ih =>
    obtain ⟨x, hx⟩ := Option.isSome_iff_exists.1 (h a (List.mem_cons_self a l))
    obtain ⟨xs, hxs, hf⟩ := ih (fun s hs => h s (List.mem_cons_of_mem a hs))
    exact ⟨x :: xs, by unfold resolveAll; rw [hx, hxs], .cons hx hf⟩

/-- C7 (confirmed): under the invariant that every slug in the order list
resolves in the map, `each_volume` / `each_page` yield exactly the entities
of `volume_slugs` / `page_slugs` in list order (`Forall₂` against the order
list).  Both are pure functions of the comic / volume, so repeated calls
without intervening mutation trivially return the same sequence. -/
theorem C7_each_yields_order (c : Comic) (v : Volume)
    (hc : ∀ s ∈ c.volume_slugs, (lookupA c.volumes s).isSome)
    (hv : ∀ s ∈ v.page_slugs, (lookupA v.pages s).isSome) :
    (∃ vs, c.each_volume = some vs ∧
      List.Forall₂ (fun s u => lookupA c.volumes s = some u)
        c.volume_slugs vs) ∧
    (∃ ps, v.each_page = some ps ∧
      List.Forall₂ (fun s u => lookupA v.pages s = some u) v.page_slugs ps) :=
  ⟨resolveAll_spec _ _ hc, resolveAll_spec _ _ hv⟩

/-- Concrete volume for the C7 witness. -/
def c7Volume : Volume :=
  Volume.mk none "Intro" "intro" "i" ["cover", "p1"]
    [("cover", Page.init none "Cover" "i"), ("p1", Page.init none "P1" "i")]

/-- Concrete comic for the C7 witness (§8 scenario shape). -/
def c7Comic : Comic :=
  Comic.mk (some []) "c" "ph" ["intro", "part-two"]
    [("intro", c7Volume), ("part-two", Volume.init none "Part Two" "i" [])]

/-- Witness for C7 at a concrete two-volume comic. -/
theorem C7_each_yields_order_witness :
    (∃ vs, c7Comic.each_volume = some vs ∧
      List.Forall₂ (fun s u => lookupA c7Comic.volumes s = some u)
        c7Comic.volume_slugs vs) ∧
    (∃ ps, c7Volume.each_page = some ps ∧
      List.Forall₂ (fun s u => lookupA c7Volume.pages s = some u)
        c7Volume.page_slugs ps) :=
  C7_each_yields_order c7Comic c7Volume (by decide) (by decide)

/-- C8 (confirmed): `write_comic` demands exactly one of `comic.path` and the
explicit `path` argument.  If both or neither are present it fails with the
invalid-state `ScuzzieError` and neither the filesystem nor the comic is
touched; if exactly one is present the save proceeds with that directory. -/
theorem C8_write_comic_path_contract (c : Comic) (p : Option FPath) (fs : FS) :
    (c.path = none → p = none →
      write_comic c p fs = (c, fs, .error (.scuzzieError ensurePathMsg))) ∧
    (∀ cp pp, c.path = some cp → p = some pp →
      write_comic c p fs = (c, fs, .error (.scuzzieError ensurePathMsg))) ∧
    (∀ cp, c.path = some cp → p = none →
      write_comic c p fs = _write_comic_body c cp fs) ∧
    (∀ pp, c.path = none → p = some pp →
      write_comic c p fs = _write_comic_body { c with path := some pp } pp fs)
    := by
  refine ⟨?_, ?_, ?_, ?_⟩
  · intro h1 h2
    subst h2
    unfold write_comic _ensure_comic_has_path
    rw [h1]
  · intro cp pp h1 h2
    subst h2
    unfold write_comic _ensure_comic_has_path
    rw [h1]
  · intro cp h1 h2
    subst h2
    unfold write_comic _ensure_comic_has_path
    rw [h1]
  · intro pp h1 h2
    subst h2
    unfold write_comic _ensure_comic_has_path
    rw [h1]

/-- Witness for C8: the both-present and neither-present cases fail without
touching the state, the exactly-one cases proceed. -/
theorem C8_write_comic_path_contract_witness :
    (write_comic (Comic.init none "n" "ph" []) none (FS.mk [] [] []) =
      (Comic.init none "n" "ph" [], FS.mk [] [] [],
       .error (.scuzzieError ensurePathMsg))) ∧
    (write_comic (Comic.init (some ["a"]) "n" "ph" []) (some ["b"])
        (FS.mk [] [] []) =
      (Comic.init (some ["a"]) "n" "ph" [], FS.mk [] [] [],
       .error (.scuzzieError ensurePathMsg))) ∧
    (write_comic (Comic.init (some ["a"]) "n" "ph" []) none (FS.mk [] [] []) =
      _write_comic_body (Comic.init (some ["a"]) "n" "ph" []) ["a"]
        (FS.mk [] [] [])) ∧
    (write_comic (Comic.init none "n" "ph" []) (some ["b"]) (FS.mk [] [] []) =
      _write_comic_body { Comic.init none "n" "ph" [] with path := some ["b"] }
        ["b"] (FS.mk [] [] [])) :=
  ⟨(C8_write_comic_path_contract (Comic.init none "n" "ph" []) none
      (FS.mk [] [] [])).1 rfl rfl,
   (C8_write_comic_path_contract (Comic.init (some ["a"]) "n" "ph" [])
      (some ["b"]) (FS.mk [] [] [])).2.1 ["a"] ["b"] rfl rfl,
   (C8_write_comic_path_contract (Comic.init (some ["a"]) "n" "ph" []) none
      (FS.mk [] [] [])).2.2.1 ["a"] rfl rfl,
   (C8_write_comic_path_contract (Comic.init none "n" "ph" []) (some ["b"])
      (FS.mk [] [] [])).2.2.2 ["b"] rfl rfl⟩

theorem write_comic_body_fst (c : Comic) (path : FPath) (fs : FS) :
    (_write_comic_body c path fs).1 = c := by
  unfold _write_comic_body
  split
  · rfl
  · split
    rfl

/-- C10 (confirmed): saving a virtual comic with an explicit target mutates
the comic — its `path` becomes the target — so it is no longer virtual: a
later `write_comic` with no explicit path proceeds with the same directory,
and a later call that supplies a path again fails the exactly-one check. -/
theorem C10_write_mutates_virtual (c : Comic) (pp : FPath) (fs : FS)
    (h : c.path = none) :
    ((write_comic c (some pp) fs).1.path = some pp) ∧
    (∀ fs2, write_comic (write_comic c (some pp) fs).1 none fs2 =
      _write_comic_body (write_comic c (some pp) fs).1 pp fs2) ∧
    (∀ q fs3, write_comic (write_comic c (some pp) fs).1 (some q) fs3 =
      ((write_comic c (some pp) fs).1, fs3,
       .error (.scuzzieError ensurePathMsg))) := by
  have hw : write_comic c (some pp) fs =
      _write_comic_body { c with path := some pp } pp fs := by
    unfold write_comic _ensure_comic_has_path
    rw [h]
  have h1 : (write_comic c (some pp) fs).1 = { c with path := some pp } := by
    rw [hw, write_comic_body_fst]
  refine ⟨by rw [h1], ?_, ?_⟩
  · intro fs2
    rw [h1]
    unfold write_comic _ensure_comic_has_path
    rfl
  · intro q fs3
    rw [h1]
    unfold write_comic _ensure_comic_has_path
    rfl

/-- Witness for C10 at a concrete virtual comic. -/
theorem C10_write_mutates_virtual_witness :
    ((write_comic (Comic.init none "n" "ph" []) (some ["t"])
        (FS.mk [] [] [])).1.path = some ["t"]) ∧
    (write_comic (write_comic (Comic.init none "n" "ph" []) (some ["t"])
        (FS.mk [] [] [])).1 none (FS.mk [] [] []) =
      _write_comic_body (write_comic (Comic.init none "n" "ph" []) (some ["t"])
        (FS.mk [] [] [])).1 ["t"] (FS.mk [] [] [])) ∧
    (write_comic (write_comic (Comic.init none "n" "ph" []) (some ["t"])
        (FS.mk [] [] [])).1 (some ["u"]) (FS.mk [] [] []) =
      ((write_comic (Comic.init none "n" "ph" []) (some ["t"])
        (FS.mk [] [] [])).1, FS.mk [] [] [],
       .error (.scuzzieError ensurePathMsg))) := by
  have h := C10_write_mutates_virtual (Comic.init none "n" "ph" []) ["t"]
    (FS.mk [] [] []) rfl
  exact ⟨h.1, h.2.1 (FS.mk [] [] []), h.2.2 ["u"] (FS.mk [] [] [])⟩

theorem mkdir1_dirs_subset (fs : FS) (p : FPath) :
    fs.dirs ⊆ (fs.mkdir1 p).dirs := by
  unfold FS.mkdir1
  split
  · exact fun a h => h
  · exact fun a h => List.mem_append_left _ h

theorem mem_mkdir1_self (fs : FS) (p : FPath) : p ∈ (fs.mkdir1 p).dirs := by
  unfold FS.mkdir1
  split
  · assumption
  · exact List.mem_append_right _ (List.mem_singleton_self p)

theorem foldl_mkdir1_dirs_subset (l : List FPath) (fs : FS) :
    fs.dirs ⊆ (l.foldl FS.mkdir1 fs).dirs := by
  induction l generalizing fs with
  | nil => exact fun a h => h
  | cons p l ih =>
    exact fun a ha => ih (fs.mkdir1 p) (mkdir1_dirs_subset fs p ha)

theorem mkdirp_dirs_subset (fs : FS) (p : FPath) :
    fs.dirs ⊆ (fs.mkdirp p).dirs :=
  foldl_mkdir1_dirs_subset _ _

theorem mem_foldl_mkdir1 : ∀ (l : List FPath) (fs : FS) (p : FPath),
    p ∈ l → p ∈ (l.foldl FS.mkdir1 fs).dirs := by
  intro l
  induction l with
  | nil => intro fs p hp; cases hp
  | cons a l ih =>
    intro fs p hp
    rcases List.mem_cons.1 hp with heq | h
    · subst heq
      exact foldl_mkdir1_dirs_subset l _ (mem_mkdir1_self fs p)
    · exact ih _ _ h

theorem mem_ancestors_self (p : FPath) (h : p ≠ []) : p ∈ ancestors p := by
  unfold ancestors
  have hl : 0 < p.length := List.length_pos.2 h
  refine List.mem_map.2 ⟨p.length - 1, List.mem_range.2 (by omega), ?_⟩
  have he : p.length - 1 + 1 = p.length := by omega
  rw [he, List.take_length]

theorem mem_mkdirp_self (fs : FS) (p : FPath) (h : p ≠ []) :
    p ∈ (fs.mkdirp p).dirs :=
  mem_foldl_mkdir1 _ _ _ (mem_ancestors_self p h)

theorem mkdir1_files (fs : FS) (p : FPath) : (fs.mkdir1 p).files = fs.files := by
  unfold FS.mkdir1
  split <;> rfl

theorem mkdir1_assets (fs : FS) (p : FPath) :
    (fs.mkdir1 p).assets = fs.assets := by
  unfold FS.mkdir1
  split <;> rfl

theorem foldl_mkdir1_files (l : List FPath) (fs : FS) :
    (l.foldl FS.mkdir1 fs).files = fs.files := by
  induction l generalizing fs with
  | nil => rfl
  | cons p l ih => rw [List.foldl_cons, ih, mkdir1_files]

theorem foldl_mkdir1_assets (l : List FPath) (fs : FS) :
    (l.foldl FS.mkdir1 fs).assets = fs.assets := by
  induction l generalizing fs with
  | nil => rfl
  | cons p l ih => rw [List.foldl_cons, ih, mkdir1_assets]

theorem mkdirp_files (fs : FS) (p : FPath) : (fs.mkdirp p).files = fs.files :=
  foldl_mkdir1_files _ _

theorem mkdirp_assets (fs : FS) (p : FPath) :
    (fs.mkdirp p).assets = fs.assets :=
  foldl_mkdir1_assets _ _

theorem read_pages_loop_fst (paths : List FPath) (v : Volume) (cp : FPath)
    (fs : FS) : (_read_pages_loop paths v cp fs).1 = fs := by
  induction paths generalizing v fs with
  | nil => rfl
  | cons p rest ih =>
    unfold _read_pages_loop
    cases _read_page_config p fs with
    | error e => rfl
    | ok config =>
      simp only [stepE_ok]
      cases _page_from_config config p cp fs with
      | error e => rfl
      | ok page =>
        simp only [stepE_ok]
        cases v.add_page page with
        | error e => rfl
        | ok vp =>
          simp only [stepE_ok]
          exact ih vp.1 fs


theorem read_pages_none (v : Volume) (cp : FPath) (fs : FS)
    (hv : v.path = none) :
    _read_pages v cp fs = (fs, .error (.scuzzieError
      ("Attempted to read pages into a virtual volume. " ++
       "This should never happen."))) := by
  unfold _read_pages
  split
  · rfl
  · next vp heq => rw [hv] at heq; cases heq

theorem read_pages_fst (v : Volume) (vp cp : FPath) (fs : FS)
    (hv : v.path = some vp) :
    (_read_pages v cp fs).1 = fs.mkdirp (vp ++ ["pages"]) := by
  unfold _read_pages
  split
  · next heq => rw [hv] at heq; cases heq
  · next vp2 heq =>
    rw [hv] at heq
    injection heq with heq2
    subst heq2
    refine stepS_fst_of_fst_eq _ _ (fun a => ?_) |>.trans ?_
    · dsimp only
      split <;> rfl
    · exact read_pages_loop_fst _ _ _ _

theorem read_pages_dirs_subset (v : Volume) (cp : FPath) (fs : FS) :
    fs.dirs ⊆ ((_read_pages v cp fs).1).dirs := by
  cases hv : v.path with
  | none => rw [read_pages_none v cp fs hv]; exact fun a h => h
  | some vp =>
    rw [read_pages_fst v vp cp fs hv]
    exact mkdirp_dirs_subset fs _

theorem read_pages_creates_pages_dir (v : Volume) (vp : FPath) (cp : FPath)
    (fs : FS) (hv : v.path = some vp) :
    vp ++ ["pages"] ∈ ((_read_pages v cp fs).1).dirs := by
  rw [read_pages_fst v vp cp fs hv]
  exact mem_mkdirp_self fs _ (by simp)

theorem read_volumes_loop_dirs_subset (paths : List FPath) (into : Comic)
    (cp : FPath) (fs : FS) :
    fs.dirs ⊆ ((_read_volumes_loop paths into cp fs).1).dirs := by
  induction paths generalizing into fs with
  | nil => exact fun a h => h
  | cons p rest ih =>
    unfold _read_volumes_loop
    cases _read_volume_config p fs with
    | error e => exact fun a h => h
    | ok config =>
      simp only [stepE_ok]
      cases _volume_from_config config p cp fs with
      | error e => exact fun a h => h
      | ok volume =>
        simp only [stepE_ok]
        rcases hp : _read_pages volume cp fs with ⟨fs2, r⟩
        have hsub : fs.dirs ⊆ fs2.dirs := by
          have h := read_pages_dirs_subset volume cp fs
          rw [hp] at h
          exact h
        cases r with
        | error e => simpa using hsub
        | ok volume2 =>
          simp only [stepS_ok]
          cases into.add_volume volume2 with
          | error e => simpa using hsub
          | ok into2 =>
            simp only [stepE_ok]
            exact fun a ha => ih into2 fs2 (hsub ha)

/-- C5 (confirmed): whenever the page-directory loop of `_read_pages` runs to
completion and one or more slugs in the (possibly extended) `page_slugs` have
no loaded page, `_read_pages` fails with `ScuzzieVolumeConfigError`, whose
reason names the volume's title and every missing slug; the check runs only
after the whole directory loop, so all page directories were read first. -/
theorem C5_missing_pages_error (v vol : Volume) (vp comic_path : FPath)
    (fs fs1 : FS)
    (hpath : v.path = some vp)
    (hloop : _read_pages_loop
        ((fs.mkdirp (vp ++ ["pages"])).listdir (vp ++ ["pages"])) v comic_path
        (fs.mkdirp (vp ++ ["pages"])) = (fs1, .ok vol))
    (hmiss : vol.page_slugs.filter (fun s => (lookupA vol.pages s).isNone)
      ≠ []) :
    _read_pages v comic_path fs = (fs1, .error (.volumeConfigError
      (missingPagesMsg vol.title
        (vol.page_slugs.filter (fun s => (lookupA vol.pages s).isNone))))) := by
  have hfalse : (vol.page_slugs.filter
      (fun s => (lookupA vol.pages s).isNone)).isEmpty = false := by
    rcases he : vol.page_slugs.filter (fun s => (lookupA vol.pages s).isNone)
      with _ | ⟨a, l⟩
    · exact absurd he hmiss
    · rfl
  unfold _read_pages
  split
  · next heq => rw [hpath] at heq; cases heq
  · next vp2 heq =>
    rw [hpath] at heq
    injection heq with heq2
    subst heq2
    show stepS (_read_pages_loop
      ((fs.mkdirp (vp ++ ["pages"])).listdir (vp ++ ["pages"])) v comic_path
      (fs.mkdirp (vp ++ ["pages"]))) _ = _
    rw [hloop]
    simp only [stepS_ok]
    simp only [hfalse]
    rfl

/-- Concrete volume for the C5 witness: one page directory exists, two
listed slugs do not. -/
def c5Volume : Volume :=
  Volume.init (some ["r", "volumes", "v1"]) "Vol One" "vimg"
    ["page-one", "ghost-a", "ghost-b"]

/-- Concrete filesystem for the C5 witness. -/
def c5FS : FS :=
  FS.mk
    [["r"], ["r", "volumes"], ["r", "volumes", "v1"],
     ["r", "volumes", "v1", "pages"],
     ["r", "volumes", "v1", "pages", "page-one"]]
    [(["r", "volumes", "v1", "pages", "page-one", "page.toml"],
      Doc.pageDoc "Page One" "pimg")]
    [(["r"], "pimg")]

/-- The volume as mutated by the successful part of the C5 page loop. -/
def c5Loaded : Volume :=
  { c5Volume with pages := [("page-one",
      { Page.init (some ["r", "volumes", "v1", "pages", "page-one"])
          "Page One" "pimg" with volume := some c5Volume.ref })] }

/-- Witness for C5: the loop reads the one existing page directory, then the
volume-config error names the title and both missing slugs. -/
theorem C5_missing_pages_error_witness :
    _read_pages c5Volume ["r"] c5FS = (c5FS, .error (.volumeConfigError
      (missingPagesMsg c5Loaded.title
        (c5Loaded.page_slugs.filter
          (fun s => (lookupA c5Loaded.pages s).isNone))))) :=
  C5_missing_pages_error c5Volume c5Loaded ["r", "volumes", "v1"] ["r"]
    c5FS c5FS rfl (by rfl) (by decide)

/-- C9 (confirmed): loading is not read-only.  Whenever the comic config
itself loads, `read_comic` has already created `<root>/volumes/` (so loading
an empty root with only a valid `comic.toml` succeeds and leaves a fresh
`volumes/` directory); and for a discovered volume directory whose config
loads, the volume's `pages/` subdirectory is created as well. -/
theorem C9_read_creates_directories (root : FPath) (fs : FS)
    (name ph : String) (vls : List String) :
    (lookupA fs.files (root ++ ["comic.toml"]) = some (.comicDoc name ph vls) →
     validate_asset_exists root ph fs →
     root ++ ["volumes"] ∈ ((read_comic root fs).1).dirs) ∧
    (∀ vd t i ps,
      lookupA fs.files (root ++ ["comic.toml"]) =
        some (.comicDoc name ph vls) →
      validate_asset_exists root ph fs →
      (fs.mkdirp (root ++ ["volumes"])).listdir (root ++ ["volumes"]) = [vd] →
      lookupA fs.files (vd ++ ["volume.toml"]) = some (.volumeDoc t i ps) →
      validate_asset_exists root i fs →
      vd ++ ["pages"] ∈ ((read_comic root fs).1).dirs) := by
  have mkh1 : ∀ (hcfg : lookupA fs.files (root ++ ["comic.toml"]) =
      some (.comicDoc name ph vls)),
      _read_comic_config root fs = .ok (.comicDoc name ph vls) := by
    intro hcfg
    unfold _read_comic_config _try_read_toml
    rw [hcfg]
  have mkh3 : lookupA fs.files (root ++ ["comic.toml"]) =
      some (.comicDoc name ph vls) →
      validate_asset_exists root ph fs →
      read_comic root fs =
        _read_volumes (Comic.init (some root) name ph vls) root fs := by
    intro hcfg hph
    have h2 : _comic_from_config (.comicDoc name ph vls) root fs =
        .ok (Comic.init (some root) name ph vls) := by
      show (if validate_asset_exists root ph fs then
          (Except.ok (Comic.init (some root) name ph vls) :
            Except ScuzzieErr Comic)
        else .error (.comicConfigError ("Path does not exist: " ++ ph))) = _
      rw [if_pos hph]
    unfold read_comic
    rw [mkh1 hcfg]
    simp only [stepE_ok]
    rw [h2]
    simp only [stepE_ok]
    rfl
  constructor
  · intro hcfg hph
    rw [mkh3 hcfg hph]
    unfold _read_volumes
    show root ++ ["volumes"] ∈ ((_read_volumes_loop
      ((fs.mkdirp (root ++ ["volumes"])).listdir (root ++ ["volumes"]))
      (Comic.init (some root) name ph vls) root
      (fs.mkdirp (root ++ ["volumes"]))).1).dirs
    exact read_volumes_loop_dirs_subset _ _ _ _
      (mem_mkdirp_self fs _ (by simp))
  · intro vd t i ps hcfg hph hlist hvcfg himg
    rw [mkh3 hcfg hph]
    unfold _read_volumes
    show vd ++ ["pages"] ∈ ((_read_volumes_loop
      ((fs.mkdirp (root ++ ["volumes"])).listdir (root ++ ["volumes"]))
      (Comic.init (some root) name ph vls) root
      (fs.mkdirp (root ++ ["volumes"]))).1).dirs
    rw [hlist]
    have h4 : _read_volume_config vd (fs.mkdirp (root ++ ["volumes"])) =
        .ok (.volumeDoc t i ps) := by
      unfold _read_volume_config _try_read_toml
      rw [mkdirp_files, hvcfg]
    have h5 : _volume_from_config (.volumeDoc t i ps) vd root
        (fs.mkdirp (root ++ ["volumes"])) =
        .ok (Volume.init (some vd) t i ps) := by
      show (if validate_asset_exists root i (fs.mkdirp (root ++ ["volumes"]))
          then (Except.ok (Volume.init (some vd) t i ps) :
            Except ScuzzieErr Volume)
        else .error (.volumeConfigError ("Path does not exist: " ++ i))) = _
      rw [if_pos ?hv]
      case hv =>
        unfold validate_asset_exists
        rw [mkdirp_assets]
        exact himg
    unfold _read_volumes_loop
    rw [h4]
    simp only [stepE_ok]
    rw [h5]
    simp only [stepE_ok]
    rcases hp : _read_pages (Volume.init (some vd) t i ps) root
        (fs.mkdirp (root ++ ["volumes"])) with ⟨fs2, r⟩
    have hmem : vd ++ ["pages"] ∈ fs2.dirs := by
      have h := read_pages_creates_pages_dir (Volume.init (some vd) t i ps)
        vd root (fs.mkdirp (root ++ ["volumes"])) rfl
      rw [hp] at h
      exact h
    cases r with
    | error e => simpa using hmem
    | ok volume2 =>
      simp only [stepS_ok]
      cases (Comic.init (some root) name ph vls).add_volume volume2 with
      | error e => simpa using hmem
      | ok into2 =>
        simp only [stepE_ok]
        exact hmem

/-- Concrete root with only a valid `comic.toml` for the C9 witness. -/
def c9FSa : FS :=
  FS.mk [] [(["r", "comic.toml"], Doc.comicDoc "c" "ph" [])] [(["r"], "ph")]

/-- Concrete root with one volume directory lacking `pages/` for C9. -/
def c9FSb : FS :=
  FS.mk [["r"], ["r", "volumes"], ["r", "volumes", "v1"]]
    [(["r", "comic.toml"], Doc.comicDoc "c" "ph" []),
     (["r", "volumes", "v1", "volume.toml"], Doc.volumeDoc "V One" "vi" [])]
    [(["r"], "ph"), (["r"], "vi")]

/-- Witness for C9: loading the empty root succeeds and leaves `volumes/`
behind; loading the root with a bare volume directory creates its `pages/`. -/
theorem C9_read_creates_directories_witness :
    ["r", "volumes"] ∈ ((read_comic ["r"] c9FSa).1).dirs ∧
    (read_comic ["r"] c9FSa).2 = .ok (Comic.init (some ["r"]) "c" "ph" []) ∧
    ["r", "volumes", "v1", "pages"] ∈ ((read_comic ["r"] c9FSb).1).dirs := by
  refine ⟨?_, by rfl, ?_⟩
  · exact (C9_read_creates_directories ["r"] c9FSa "c" "ph" []).1 rfl
      (by decide)
  · exact (C9_read_creates_directories ["r"] c9FSb "c" "ph" []).2
      ["r", "volumes", "v1"] "V One" "vi" [] rfl (by decide) (by rfl) rfl
      (by decide)


/-- Witness for C2 at concrete volumes and page. -/
theorem C2_add_page_rebinds_witness :
    ∃ r1 : Volume × Page,
      (Volume.init none "V One" "i" []).add_page (Page.init none "P" "i")
        = .ok r1 ∧
      r1.2.volume = some (Volume.init none "V One" "i" []).ref ∧
      ∃ r2 : Volume × Page,
        (Volume.init none "V Two" "i" []).add_page r1.2 = .ok r2 ∧
        r2.2.volume = some (Volume.init none "V Two" "i" []).ref :=
  C2_add_page_rebinds _ _ _ rfl rfl

/-- The concrete load scenario for C3: the comic lists one volume slug
`somedir`, the only directory under `volumes/` is `somedir`, and its
`volume.toml` carries an arbitrary title. -/
def c3FS (title : String) : FS :=
  FS.mk [["volumes"], ["volumes", "somedir"]]
    [(["comic.toml"], Doc.comicDoc "c" "ph" ["somedir"]),
     (["volumes", "somedir", "volume.toml"], Doc.volumeDoc title "img" [])]
    [([], "ph"), ([], "img")]

/-- The comic that loading `c3FS title` produces. -/
def c3Comic (title : String) : Comic :=
  Comic.mk (some []) "c" "ph" ["somedir", slugify title]
    [(slugify title, Volume.init (some ["volumes", "somedir"]) title "img" [])]

/-- C3 (corrected): during load the volume built from `volumes/somedir` is
keyed in the comic under `slugify(title)` — the slug is re-derived from the
loaded title by `Volume.__init__` — while the directory name only becomes the
volume's `path`.  When the directory name differs from `slugify(title)`, a
lookup under the directory name finds nothing; the slug is appended to
`volume_slugs`, leaving the directory name dangling there. -/
theorem C3_volume_keyed_by_slugified_title (title : String)
    (hne : slugify title ≠ "somedir") :
    ∃ fs1, read_comic [] (c3FS title) = (fs1, .ok (c3Comic title)) ∧
      lookupA (c3Comic title).volumes "somedir" = none ∧
      lookupA (c3Comic title).volumes (slugify title) =
        some (Volume.init (some ["volumes", "somedir"]) title "img" []) ∧
      (c3Comic title).volume_slugs = ["somedir", slugify title] := by
  have h5 : _read_volume_config ["volumes", "somedir"] (c3FS title) =
      .ok (.volumeDoc title "img" []) := by rfl
  have h6 : _volume_from_config (.volumeDoc title "img" [])
      ["volumes", "somedir"] [] (c3FS title) =
      .ok (Volume.init (some ["volumes", "somedir"]) title "img" []) := by rfl
  have h7 : _read_pages
      (Volume.init (some ["volumes", "somedir"]) title "img" []) []
      (c3FS title) =
      ({ c3FS title with
          dirs := (c3FS title).dirs ++ [["volumes", "somedir", "pages"]] },
       .ok (Volume.init (some ["volumes", "somedir"]) title "img" [])) := by
    rfl
  have h8 : (Comic.init (some []) "c" "ph" ["somedir"]).add_volume
      (Volume.init (some ["volumes", "somedir"]) title "img" []) =
      .ok (c3Comic title) := by
    have hnot1 : ¬((lookupA (Comic.init (some []) "c" "ph" ["somedir"]).volumes
        (Volume.init (some ["volumes", "somedir"]) title "img" []).slug).isSome
        = true) := fun h => nomatch h
    have hnot2 : ¬((Volume.init (some ["volumes", "somedir"]) title "img"
        []).slug ∈ (Comic.init (some []) "c" "ph" ["somedir"]).volume_slugs) :=
      fun h => hne (List.mem_singleton.1 h)
    unfold Comic.add_volume
    rw [if_neg hnot1, if_neg hnot2]
    rfl
  have h9 : read_comic [] (c3FS title) =
      _read_volumes_loop [["volumes", "somedir"]]
        (Comic.init (some []) "c" "ph" ["somedir"]) [] (c3FS title) := by rfl
  refine ⟨{ c3FS title with
      dirs := (c3FS title).dirs ++ [["volumes", "somedir", "pages"]] },
    ?_, ?_, ?_, rfl⟩
  · rw [h9]
    unfold _read_volumes_loop
    rw [h5]
    simp only [stepE_ok]
    rw [h6]
    simp only [stepE_ok]
    rw [h7]
    simp only [stepS_ok]
    rw [h8]
    simp only [stepE_ok]
    rfl
  · unfold c3Comic
    rw [lookupA_cons, if_neg hne]
    rfl
  · unfold c3Comic
    rw [lookupA_cons, if_pos rfl]

/-- C3 counterexample: the claim as stated says the volume is stored and
looked up under the directory name; loading the scenario with title
`Other Title` succeeds, the lookup under the directory name `somedir` finds
nothing, and the volume sits under `other-title` instead. -/
theorem C3_counterexample :
    ((read_comic [] (c3FS "Other Title")).2.map
      (fun c => (lookupA c.volumes "somedir",
                 (lookupA c.volumes "other-title").isSome)))
    = .ok (none, true) := by rfl

/-- Witness for C3 at the concrete mismatching title. -/
theorem C3_volume_keyed_by_slugified_title_witness :
    ∃ fs1, read_comic [] (c3FS "Other Title")
        = (fs1, .ok (c3Comic "Other Title")) ∧
      lookupA (c3Comic "Other Title").volumes "somedir" = none ∧
      lookupA (c3Comic "Other Title").volumes (slugify "Other Title") =
        some (Volume.init (some ["volumes", "somedir"]) "Other Title" "img"
          []) ∧
      (c3Comic "Other Title").volume_slugs =
        ["somedir", slugify "Other Title"] :=
  C3_volume_keyed_by_slugified_title "Other Title" (by decide)


/-- The C1 scenario builder: create `N` volumes on a comic via
`Comic.create_volume`, feeding each updated comic into the next call. -/
def buildVolumes (c : Comic) (vols : List (String × String)) :
    Except ScuzzieErr Comic :=
  match vols with
  | [] => .ok c
  | ti :: rest =>
    match c.create_volume ti.1 ti.2 with
    | .error e => .error e
    | .ok cv => buildVolumes cv.1 rest

/-- The slug a `(title, image)` pair produces. -/
def volKey (ti : String × String) : String := slugify ti.1

/-- The virtual volume `create_volume` constructs from a pair. -/
def mkVirtualVol (ti : String × String) : Volume :=
  Volume.init none ti.1 ti.2 []

/-- `<root>/volumes/<slug>`. -/
def volDir (root : FPath) (ti : String × String) : FPath :=
  root ++ ["volumes", volKey ti]

/-- `<root>/volumes/<slug>/pages`. -/
def pagesDir (root : FPath) (ti : String × String) : FPath :=
  volDir root ti ++ ["pages"]

/-- `<root>/volumes/<slug>/volume.toml`. -/
def volFilePath (root : FPath) (ti : String × String) : FPath :=
  volDir root ti ++ ["volume.toml"]

/-- The volume config document the save writes for a pageless volume. -/
def volFile (root : FPath) (ti : String × String) : FPath × Doc :=
  (volFilePath root ti, .volumeDoc ti.1 ti.2 [])

theorem volFilePath_eq (root : FPath) (ti : String × String) :
    volFilePath root ti = root ++ ["volumes", volKey ti, "volume.toml"] := by
  simp [volFilePath, volDir]

theorem app_ne_of_ne (root : FPath) {a b : FPath} (h : a ≠ b) :
    root ++ a ≠ root ++ b :=
  fun hh => h (List.append_cancel_left hh)

theorem volDir_inj (root : FPath) {a b : String × String}
    (h : volDir root a = volDir root b) : volKey a = volKey b := by
  unfold volDir at h
  have h2 := List.append_cancel_left h
  injection h2 with h3 h4
  injection h4 with h5 h6

theorem volFilePath_inj (root : FPath) {a b : String × String}
    (h : volFilePath root a = volFilePath root b) : volKey a = volKey b := by
  rw [volFilePath_eq, volFilePath_eq] at h
  have h2 := List.append_cancel_left h
  injection h2 with h3 h4
  injection h4 with h5 h6

theorem ancestors_length_le (p : FPath) :
    ∀ a ∈ ancestors p, a.length ≤ p.length := by
  intro a ha
  unfold ancestors at ha
  obtain ⟨i, hi, rfl⟩ := List.mem_map.1 ha
  rw [List.length_take]
  omega

theorem not_mem_ancestors_of_longer {p q : FPath}
    (h : p.length < q.length) : q ∉ ancestors p :=
  fun hm => absurd (ancestors_length_le p q hm) (by omega)

theorem ancestors_snoc (p : FPath) (h : p ≠ []) :
    ancestors p = ancestors p.dropLast ++ [p] := by
  unfold ancestors
  have hpos : 0 < p.length := List.length_pos.2 h
  have hn : p.length = p.dropLast.length + 1 := by
    rw [List.length_dropLast]; omega
  rw [hn, List.range_succ, List.map_append]
  congr 1
  · apply List.map_congr_left
    intro i hi
    have hi2 : i < p.dropLast.length := List.mem_range.1 hi
    rw [List.dropLast_eq_take, List.take_take]
    congr 1
    omega
  · have he : p.dropLast.length + 1 = p.length := hn.symm
    rw [List.map_singleton, he, List.take_length]

theorem ancestors_nodup (p : FPath) : (ancestors p).Nodup := by
  unfold ancestors
  refine List.Nodup.map_on ?_ (List.nodup_range _)
  intro i hi j hj hf
  have h1 : (p.take (i + 1)).length = i + 1 := by
    rw [List.length_take]
    have := List.mem_range.1 hi
    omega
  have h2 : (p.take (j + 1)).length = j + 1 := by
    rw [List.length_take]
    have := List.mem_range.1 hj
    omega
  have := h1 ▸ h2 ▸ congrArg List.length hf
  omega

theorem foldl_mkdir1_all_mem (l : List FPath) (fs : FS)
    (h : ∀ a ∈ l, a ∈ fs.dirs) : l.foldl FS.mkdir1 fs = fs := by
  induction l with
  | nil => rfl
  | cons a l ih =>
    rw [List.foldl_cons]
    have ha : fs.mkdir1 a = fs := by
      unfold FS.mkdir1
      rw [if_pos (h a (List.mem_cons_self a l))]
    rw [ha]
    exact ih (fun b hb => h b (List.mem_cons_of_mem a hb))

theorem mkdir1_of_not_mem (fs : FS) (p : FPath) (h : p ∉ fs.dirs) :
    fs.mkdir1 p = { fs with dirs := fs.dirs ++ [p] } := by
  unfold FS.mkdir1
  rw [if_neg h]

theorem mkdirp_last_fresh (fs : FS) (p : FPath) (hne : p ≠ [])
    (hanc : ∀ a ∈ ancestors p.dropLast, a ∈ fs.dirs) (hp : p ∉ fs.dirs) :
    fs.mkdirp p = { fs with dirs := fs.dirs ++ [p] } := by
  unfold FS.mkdirp
  rw [ancestors_snoc p hne, List.foldl_append,
    foldl_mkdir1_all_mem _ _ hanc, List.foldl_cons, List.foldl_nil]
  exact mkdir1_of_not_mem fs p hp

theorem mkdirp_all_mem (fs : FS) (p : FPath)
    (hanc : ∀ a ∈ ancestors p, a ∈ fs.dirs) : fs.mkdirp p = fs :=
  foldl_mkdir1_all_mem _ _ hanc

theorem mkdirp_two_fresh (fs : FS) (q : FPath) (x y : String)
    (hanc : ∀ a ∈ ancestors q, a ∈ fs.dirs)
    (h1 : q ++ [x] ∉ fs.dirs) (h2 : q ++ [x, y] ∉ fs.dirs) :
    fs.mkdirp (q ++ [x, y]) =
      { fs with dirs := fs.dirs ++ [q ++ [x], q ++ [x, y]] } := by
  unfold FS.mkdirp
  have e1 : q ++ [x, y] = (q ++ [x]) ++ [y] := by simp
  have e2 : ancestors (q ++ [x, y]) =
      (ancestors q ++ [q ++ [x]]) ++ [q ++ [x, y]] := by
    rw [ancestors_snoc (q ++ [x, y]) (by simp)]
    rw [e1, List.dropLast_concat]
    rw [ancestors_snoc (q ++ [x]) (by simp), List.dropLast_concat]
  rw [e2, List.foldl_append, List.foldl_append,
    foldl_mkdir1_all_mem _ _ hanc, List.foldl_cons, List.foldl_nil,
    List.foldl_cons, List.foldl_nil]
  rw [mkdir1_of_not_mem fs _ h1]
  rw [mkdir1_of_not_mem _ _ (by
    intro hm
    rcases List.mem_append.1 hm with hm1 | hm2
    · exact h2 hm1
    · have := List.mem_singleton.1 hm2
      have hlen := congrArg List.length this
      simp at hlen)]
  simp

theorem setFile_fresh (fs : FS) (p : FPath) (d : Doc)
    (h : lookupA fs.files p = none) :
    fs.setFile p d = { fs with files := fs.files ++ [(p, d)] } := by
  unfold FS.setFile
  have hn : ¬((lookupA fs.files p).isSome = true) := by
    rw [h]; simp
  rw [if_neg hn]

theorem listdir_nil_of_short (fs : FS) (p : FPath)
    (h : ∀ d ∈ fs.dirs, d.length ≤ p.length) : fs.listdir p = [] := by
  unfold FS.listdir
  rw [List.filter_eq_nil_iff]
  intro d hd
  have := h d hd
  simp only [Bool.and_eq_true, decide_eq_true_eq]
  intro hc
  omega


theorem create_volume_ok (c : Comic) (t i : String) (cv : Comic × Volume)
    (hk : c.volumes.map Prod.fst = c.volume_slugs)
    (h : c.create_volume t i = .ok cv) :
    slugify t ∉ c.volume_slugs ∧
    cv = ({ c with
        volume_slugs := c.volume_slugs ++ [slugify t],
        volumes := c.volumes ++ [(slugify t, Volume.init none t i [])] },
      Volume.init none t i []) := by
  unfold Comic.create_volume Comic.add_volume at h
  by_cases hl : (lookupA c.volumes
      (Volume.init none t i []).slug).isSome = true
  · rw [if_pos hl] at h
    exact absurd h (by simp [Except.map])
  · have hnone : lookupA c.volumes (slugify t) = none := by
      rcases hx : lookupA c.volumes (slugify t) with _ | q
      · rfl
      · exact absurd (by rw [show (Volume.init none t i []).slug
          = slugify t from rfl, hx]; rfl) hl
    have hnotmem : slugify t ∉ c.volume_slugs := by
      have := (lookupA_eq_none_iff c.volumes (slugify t)).1 hnone
      rw [hk] at this
      exact this
    have hnotmem2 : ¬((Volume.init none t i []).slug ∈ c.volume_slugs) :=
      hnotmem
    rw [if_neg hl, if_neg hnotmem2] at h
    refine ⟨hnotmem, ?_⟩
    have h2 : (({ c with
        volume_slugs := c.volume_slugs ++ [(Volume.init none t i []).slug],
        volumes := c.volumes ++
          [((Volume.init none t i []).slug, Volume.init none t i [])] } :
          Comic), Volume.init none t i []) = cv := by
      exact Except.ok.inj h
    exact h2.symm

theorem buildVolumes_ok : ∀ (vols : List (String × String)) (c c' : Comic),
    c.volumes.map Prod.fst = c.volume_slugs →
    buildVolumes c vols = .ok c' →
    c' = { c with
      volume_slugs := c.volume_slugs ++ vols.map volKey,
      volumes := c.volumes ++
        vols.map (fun ti => (volKey ti, mkVirtualVol ti)) } ∧
    (∀ k ∈ vols.map volKey, k ∉ c.volume_slugs) ∧
    (vols.map volKey).Nodup := by
  intro vols
  induction vols with
  | nil =>
    intro c c' hk h
    have hc := Except.ok.inj h
    subst hc
    refine ⟨?_, by simp, List.nodup_nil⟩
    simp
  | cons ti rest ih =>
    intro c c' hk h
    unfold buildVolumes at h
    rcases hcv : c.create_volume ti.1 ti.2 with e | cv
    · rw [hcv] at h; cases h
    · rw [hcv] at h
      obtain ⟨hnm, hcveq⟩ := create_volume_ok c ti.1 ti.2 cv hk hcv
      have hc1 : cv.1 = { c with
          volume_slugs := c.volume_slugs ++ [volKey ti],
          volumes := c.volumes ++ [(volKey ti, mkVirtualVol ti)] } := by
        rw [hcveq]
        rfl
      have hk1 : cv.1.volumes.map Prod.fst = cv.1.volume_slugs := by
        rw [hc1]
        simp [hk]
      obtain ⟨he, hnot, hnd⟩ := ih cv.1 c' hk1 h
      rw [hc1] at he hnot
      refine ⟨?_, ?_, ?_⟩
      · rw [he]
        simp [List.append_assoc]
      · intro k hkm
        rw [List.map_cons] at hkm
        rcases List.mem_cons.1 hkm with heq | hm
        · subst heq; exact hnm
        · intro hmem
          exact hnot k hm (List.mem_append_left _ hmem)
      · refine List.nodup_cons.2 ⟨?_, hnd⟩
        intro hmem
        exact hnot (volKey ti) hmem
          (List.mem_append_right _ (List.mem_singleton_self _))


theorem write_virtual_volume_spec (root : FPath) (comic : Comic)
    (ti : String × String) (fs : FS)
    (hcpath : comic.path = some root)
    (himg : (root, stripSlashes ti.2) ∈ fs.assets)
    (hanc : ∀ a ∈ ancestors root, a ∈ fs.dirs)
    (hvol : root ++ ["volumes"] ∈ fs.dirs)
    (hfresh : volDir root ti ∉ fs.dirs)
    (hfile : lookupA fs.files (volFilePath root ti) = none) :
    _write_volume (mkVirtualVol ti) comic root fs =
      ({ fs with dirs := fs.dirs ++ [volDir root ti],
                 files := fs.files ++ [volFile root ti] }, .ok ()) := by
  unfold _write_volume _write_volume_config
  split
  · next heq => rw [hcpath] at heq; cases heq
  · next cpath heq =>
    rw [hcpath] at heq
    injection heq with heq2
    subst heq2
    have hv : validate_asset_exists root (mkVirtualVol ti).image fs := himg
    rw [if_pos hv]
    have hP : root ++ ["volumes", (mkVirtualVol ti).slug, "volume.toml"] =
        volFilePath root ti := by
      rw [volFilePath_eq]
      rfl
    rw [hP]
    unfold _try_write_toml
    have hDL : (volFilePath root ti).dropLast = volDir root ti := by
      unfold volFilePath
      exact List.dropLast_concat
    rw [hDL]
    have hanc2 : ∀ a ∈ ancestors (volDir root ti).dropLast, a ∈ fs.dirs := by
      have hDL2 : (volDir root ti).dropLast = root ++ ["volumes"] := by
        have : volDir root ti = (root ++ ["volumes"]) ++ [volKey ti] := by
          simp [volDir]
        rw [this]
        exact List.dropLast_concat
      rw [hDL2]
      rw [ancestors_snoc (root ++ ["volumes"]) (by simp)]
      have hDL3 : (root ++ ["volumes"]).dropLast = root :=
        List.dropLast_concat
      rw [hDL3]
      intro a ha
      rcases List.mem_append.1 ha with h1 | h2
      · exact hanc a h1
      · rw [List.mem_singleton.1 h2]
        exact hvol
    rw [mkdirp_last_fresh fs (volDir root ti) (by simp [volDir]) hanc2 hfresh]
    rw [setFile_fresh { fs with dirs := fs.dirs ++ [volDir root ti] }
      (volFilePath root ti)
      (Doc.volumeDoc (mkVirtualVol ti).title (mkVirtualVol ti).image
        (mkVirtualVol ti).page_slugs) hfile]
    rfl

theorem write_volumes_loop_spec (root : FPath) (comic : Comic)
    (M : List (String × Volume)) (hcpath : comic.path = some root) :
    ∀ (suf : List (String × String)) (fs : FS),
    (∀ ti ∈ suf, lookupA M (volKey ti) = some (mkVirtualVol ti)) →
    (∀ ti ∈ suf, (root, stripSlashes ti.2) ∈ fs.assets) →
    (∀ a ∈ ancestors root, a ∈ fs.dirs) →
    root ++ ["volumes"] ∈ fs.dirs →
    (∀ ti ∈ suf, volDir root ti ∉ fs.dirs) →
    (suf.map volKey).Nodup →
    (∀ ti ∈ suf, lookupA fs.files (volFilePath root ti) = none) →
    _write_volumes_loop (suf.map volKey) M comic root fs =
      ({ fs with dirs := fs.dirs ++ suf.map (volDir root),
                 files := fs.files ++ suf.map (volFile root) }, .ok ()) := by
  intro suf
  induction suf with
  | nil =>
    intro fs _ _ _ _ _ _ _
    simp only [List.map_nil, List.append_nil]
    rfl
  | cons ti rest ih =>
    intro fs hlook hassets hanc hvol hfresh hnd hfile
    rw [List.map_cons]
    unfold _write_volumes_loop
    split
    · next heq =>
      rw [hlook ti (List.mem_cons_self ti rest)] at heq
      cases heq
    · next volume heq =>
      rw [hlook ti (List.mem_cons_self ti rest)] at heq
      injection heq with heq2
      subst heq2
      rw [write_virtual_volume_spec root comic ti fs hcpath
        (hassets ti (List.mem_cons_self ti rest)) hanc hvol
        (hfresh ti (List.mem_cons_self ti rest))
        (hfile ti (List.mem_cons_self ti rest))]
      simp only [stepS_ok]
      have hndr := List.nodup_cons.1 hnd
      have hA1 : ∀ tj ∈ rest, lookupA M (volKey tj) =
          some (mkVirtualVol tj) :=
        fun tj hj => hlook tj (List.mem_cons_of_mem ti hj)
      have hA2 : ∀ tj ∈ rest, (root, stripSlashes tj.2) ∈
          (FS.mk (fs.dirs ++ [volDir root ti])
            (fs.files ++ [volFile root ti]) fs.assets).assets :=
        fun tj hj => hassets tj (List.mem_cons_of_mem ti hj)
      have hA3 : ∀ a ∈ ancestors root, a ∈ fs.dirs ++ [volDir root ti] :=
        fun a ha => List.mem_append_left _ (hanc a ha)
      have hA4 : root ++ ["volumes"] ∈ fs.dirs ++ [volDir root ti] :=
        List.mem_append_left _ hvol
      have hA5 : ∀ tj ∈ rest, volDir root tj ∉ fs.dirs ++ [volDir root ti] := by
        intro tj hj hm
        rcases List.mem_append.1 hm with h1 | h2
        · exact hfresh tj (List.mem_cons_of_mem ti hj) h1
        · have hkey := volDir_inj root (List.mem_singleton.1 h2)
          exact hndr.1 (hkey ▸ List.mem_map_of_mem volKey hj)
      have hA6 : ∀ tj ∈ rest,
          lookupA (fs.files ++ [volFile root ti]) (volFilePath root tj)
            = none := by
        intro tj hj
        rw [lookupA_append, hfile tj (List.mem_cons_of_mem ti hj)]
        show lookupA [volFile root ti] (volFilePath root tj) = none
        rw [show volFile root ti =
          (volFilePath root ti, Doc.volumeDoc ti.1 ti.2 []) from rfl]
        rw [lookupA_cons]
        have hne : volFilePath root ti ≠ volFilePath root tj := by
          intro hEq
          have hk := volFilePath_inj root hEq
          exact hndr.1 (by rw [hk]; exact List.mem_map_of_mem volKey hj)
        rw [if_neg hne]
        rfl
      rw [ih (FS.mk (fs.dirs ++ [volDir root ti])
          (fs.files ++ [volFile root ti]) fs.assets)
        hA1 hA2 hA3 hA4 hA5 hndr.2 hA6]
      simp only [List.map_cons, List.append_assoc, List.singleton_append]


/-- The `(slug, volume)` entry `create_volume` installs in `comic.volumes`. -/
def volEntry (ti : String × String) : String × Volume :=
  (volKey ti, mkVirtualVol ti)

/-- The comic `buildVolumes` produces from a fresh virtual comic. -/
def builtComic (name ph : String) (vols : List (String × String)) : Comic :=
  Comic.mk none name ph (vols.map volKey) (vols.map volEntry)

/-- The filesystem `write_comic` leaves behind when saving a pageless
`builtComic` into a fresh target directory. -/
def writeFS (root : FPath) (name ph : String) (vols : List (String × String))
    (assets : List (FPath × String)) : FS :=
  FS.mk
    (ancestors root ++ (match vols with
      | [] => []
      | _ :: _ => (root ++ ["volumes"]) :: vols.map (volDir root)))
    ((root ++ ["comic.toml"], Doc.comicDoc name ph (vols.map volKey)) ::
      vols.map (volFile root))
    assets

theorem volDir_length (root : FPath) (ti : String × String) :
    (volDir root ti).length = root.length + 2 := by
  simp [volDir]

theorem write_first_volume_spec (root : FPath) (comic : Comic)
    (ti : String × String) (fs : FS)
    (hcpath : comic.path = some root)
    (himg : (root, stripSlashes ti.2) ∈ fs.assets)
    (hanc : ∀ a ∈ ancestors root, a ∈ fs.dirs)
    (hv1 : root ++ ["volumes"] ∉ fs.dirs)
    (hv2 : volDir root ti ∉ fs.dirs)
    (hfile : lookupA fs.files (volFilePath root ti) = none) :
    _write_volume (mkVirtualVol ti) comic root fs =
      ({ fs with
          dirs := fs.dirs ++ [root ++ ["volumes"], volDir root ti],
          files := fs.files ++ [volFile root ti] }, .ok ()) := by
  unfold _write_volume _write_volume_config
  split
  · next heq => rw [hcpath] at heq; cases heq
  · next cpath heq =>
    rw [hcpath] at heq
    injection heq with heq2
    subst heq2
    have hv : validate_asset_exists root (mkVirtualVol ti).image fs := himg
    rw [if_pos hv]
    have hP : root ++ ["volumes", (mkVirtualVol ti).slug, "volume.toml"] =
        volFilePath root ti := by
      rw [volFilePath_eq]
      rfl
    rw [hP]
    unfold _try_write_toml
    have hDL : (volFilePath root ti).dropLast = volDir root ti := by
      unfold volFilePath
      exact List.dropLast_concat
    rw [hDL]
    have hmk : fs.mkdirp (volDir root ti) =
        { fs with dirs := fs.dirs ++ [root ++ ["volumes"], volDir root ti] }
        := by
      have := mkdirp_two_fresh fs root "volumes" (volKey ti) hanc hv1 hv2
      exact this
    rw [hmk]
    rw [setFile_fresh
      { fs with dirs := fs.dirs ++ [root ++ ["volumes"], volDir root ti] }
      (volFilePath root ti)
      (Doc.volumeDoc (mkVirtualVol ti).title (mkVirtualVol ti).image
        (mkVirtualVol ti).page_slugs) hfile]
    rfl


theorem foldl_mkdir1_fresh : ∀ (l : List FPath) (fs : FS),
    (∀ a ∈ l, a ∉ fs.dirs) → l.Nodup →
    l.foldl FS.mkdir1 fs = { fs with dirs := fs.dirs ++ l } := by
  intro l
  induction l with
  | nil => intro fs _ _; simp
  | cons a l ih =>
    intro fs hf hnd
    rw [List.foldl_cons,
      mkdir1_of_not_mem fs a (hf a (List.mem_cons_self a l))]
    rw [ih { fs with dirs := fs.dirs ++ [a] } ?hf2 (List.nodup_cons.1 hnd).2]
    · simp
    case hf2 =>
      intro b hb hm
      rcases List.mem_append.1 hm with h1 | h2
      · exact hf b (List.mem_cons_of_mem a hb) h1
      · exact (List.nodup_cons.1 hnd).1 (List.mem_singleton.1 h2 ▸ hb)

/-- `builtComic` after `_ensure_comic_has_path` stored the target root. -/
def builtComicAt (root : FPath) (name ph : String)
    (vols : List (String × String)) : Comic :=
  Comic.mk (some root) name ph (vols.map volKey) (vols.map volEntry)

theorem write_comic_spec (root : FPath) (name ph : String)
    (vols : List (String × String)) (assets : List (FPath × String))
    (hnd : (vols.map volKey).Nodup)
    (hph : (root, stripSlashes ph) ∈ assets)
    (himg : ∀ ti ∈ vols, (root, stripSlashes ti.2) ∈ assets) :
    write_comic (builtComic name ph vols) (some root) (FS.mk [] [] assets) =
      (builtComicAt root name ph vols,
       writeFS root name ph vols assets, .ok ()) := by
  have hkeys : (vols.map volEntry).map Prod.fst = vols.map volKey := by
    rw [List.map_map]
    rfl
  have hlookAll : ∀ tj ∈ vols,
      lookupA (vols.map volEntry) (volKey tj) = some (mkVirtualVol tj) :=
    fun tj hj => lookupA_self_of_nodup (vols.map volEntry)
      (by rw [hkeys]; exact hnd) (volEntry tj)
      (List.mem_map_of_mem volEntry hj)
  show _write_comic_body (builtComicAt root name ph vols)
    root (FS.mk [] [] assets) = _
  have hcfg : _write_comic_config (builtComicAt root name ph vols) root
      (FS.mk [] [] assets) =
      (FS.mk (ancestors root)
        [(root ++ ["comic.toml"], Doc.comicDoc name ph (vols.map volKey))]
        assets, .ok ()) := by
    unfold _write_comic_config
    split
    · next heq => simp [builtComicAt] at heq
    · next cpath heq =>
      simp only [builtComicAt, Option.some.injEq] at heq
      subst heq
      have hv : validate_asset_exists root
          (builtComicAt root name ph vols).placeholder
          (FS.mk [] [] assets) := hph
      rw [if_pos hv]
      unfold _try_write_toml
      have hDL : (root ++ ["comic.toml"]).dropLast = root :=
        List.dropLast_concat
      rw [hDL]
      have hmk : (FS.mk [] [] assets : FS).mkdirp root =
          FS.mk (ancestors root) [] assets := by
        have hff := foldl_mkdir1_fresh (ancestors root) (FS.mk [] [] assets)
          (fun a _ ha => (List.not_mem_nil a) ha) (ancestors_nodup root)
        unfold FS.mkdirp
        rw [hff]
        simp
      rw [hmk]
      rw [setFile_fresh (FS.mk (ancestors root) [] assets)
        (root ++ ["comic.toml"])
        (Doc.comicDoc (builtComicAt root name ph vols).name
          (builtComicAt root name ph vols).placeholder
          (builtComicAt root name ph vols).volume_slugs)
        rfl]
      rfl
  unfold _write_comic_body
  rw [hcfg]
  show (match _write_volumes (builtComicAt root name ph vols) root
      (FS.mk (ancestors root)
        [(root ++ ["comic.toml"], Doc.comicDoc name ph (vols.map volKey))]
        assets) with
    | (fs, r) => (builtComicAt root name ph vols, fs, r)) = _
  have hvols : _write_volumes (builtComicAt root name ph vols) root
      (FS.mk (ancestors root)
        [(root ++ ["comic.toml"], Doc.comicDoc name ph (vols.map volKey))]
        assets) = (writeFS root name ph vols assets, .ok ()) := by
    show _write_volumes_loop (vols.map volKey) (vols.map volEntry)
      (builtComicAt root name ph vols) root
      (FS.mk (ancestors root)
        [(root ++ ["comic.toml"], Doc.comicDoc name ph (vols.map volKey))]
        assets) = _
    rcases vols with _ | ⟨ti0, rest⟩
    · show (FS.mk (ancestors root) _ assets, Except.ok ()) = _
      unfold writeFS
      simp
    · rw [List.map_cons]
      unfold _write_volumes_loop
      have hnd0 : volKey ti0 ∉ rest.map volKey ∧ (rest.map volKey).Nodup := by
        rw [List.map_cons] at hnd
        exact List.nodup_cons.1 hnd
      split
      · next heq =>
        rw [hlookAll ti0 (List.mem_cons_self ti0 rest)] at heq
        cases heq
      · next volume heq =>
        rw [hlookAll ti0 (List.mem_cons_self ti0 rest)] at heq
        injection heq with heq2
        subst heq2
        rw [write_first_volume_spec root
          (builtComicAt root name ph (ti0 :: rest)) ti0
          (FS.mk (ancestors root)
            [(root ++ ["comic.toml"],
              Doc.comicDoc name ph (volKey ti0 :: rest.map volKey))] assets)
          rfl (himg ti0 (List.mem_cons_self ti0 rest))
          (fun a ha => ha)
          (not_mem_ancestors_of_longer (by simp))
          (not_mem_ancestors_of_longer (by rw [volDir_length]; omega))
          (by
            rw [lookupA_cons]
            have hne : root ++ ["comic.toml"] ≠ volFilePath root ti0 := by
              rw [volFilePath_eq]
              exact app_ne_of_ne root (by simp)
            rw [if_neg hne]
            rfl)]
        simp only [stepS_ok]
        have hcomicne : ∀ tj : String × String,
            root ++ ["comic.toml"] ≠ volFilePath root tj := by
          intro tj
          rw [volFilePath_eq]
          exact app_ne_of_ne root (by simp)
        have hB1 : ∀ tj ∈ rest,
            lookupA ((ti0 :: rest).map volEntry) (volKey tj) =
              some (mkVirtualVol tj) :=
          fun tj hj => hlookAll tj (List.mem_cons_of_mem ti0 hj)
        have hB5 : ∀ tj ∈ rest, volDir root tj ∉
            ancestors root ++ [root ++ ["volumes"], volDir root ti0] := by
          intro tj hj hm
          rcases List.mem_append.1 hm with h1 | h2
          · exact not_mem_ancestors_of_longer
              (by rw [volDir_length]; omega) h1
          · rcases List.mem_cons.1 h2 with h3 | h4
            · have hlen := congrArg List.length h3
              rw [volDir_length] at hlen
              simp at hlen
            · have hkey := volDir_inj root (List.mem_singleton.1 h4)
              exact hnd0.1 (hkey ▸ List.mem_map_of_mem volKey hj)
        have hB6 : ∀ tj ∈ rest, lookupA
            ([(root ++ ["comic.toml"],
               Doc.comicDoc name ph (volKey ti0 :: rest.map volKey))] ++
             [volFile root ti0]) (volFilePath root tj) = none := by
          intro tj hj
          rw [lookupA_append]
          rw [lookupA_cons, if_neg (hcomicne tj)]
          show lookupA [volFile root ti0] (volFilePath root tj) = none
          rw [show volFile root ti0 =
            (volFilePath root ti0, Doc.volumeDoc ti0.1 ti0.2 []) from rfl]
          rw [lookupA_cons]
          have hne2 : volFilePath root ti0 ≠ volFilePath root tj := by
            intro hEq
            have hk := volFilePath_inj root hEq
            exact hnd0.1 (by rw [hk]; exact List.mem_map_of_mem volKey hj)
          rw [if_neg hne2]
          rfl
        rw [write_volumes_loop_spec root
          (builtComicAt root name ph (ti0 :: rest))
          ((ti0 :: rest).map volEntry) rfl rest
          (FS.mk (ancestors root ++ [root ++ ["volumes"], volDir root ti0])
            ([(root ++ ["comic.toml"],
               Doc.comicDoc name ph (volKey ti0 :: rest.map volKey))] ++
             [volFile root ti0])
            assets)
          hB1
          (fun tj hj => himg tj (List.mem_cons_of_mem ti0 hj))
          (fun a ha => List.mem_append_left _ ha)
          (List.mem_append_right _ (List.mem_cons_self _ _))
          hB5
          hnd0.2
          hB6]
        unfold writeFS
        simp [List.append_assoc]
  rw [hvols]

theorem take_append_two (r : FPath) (x y : String) :
    (r ++ [x, y]).take (r.length + 1) = r ++ [x] := by
  induction r with
  | nil => rfl
  | cons a r ih =>
    simp only [List.cons_append, List.length_cons, List.take_succ_cons]
    rw [ih]

theorem ancestors_app2 (q : FPath) (x y : String) :
    ancestors (q ++ [x, y]) = ancestors q ++ [q ++ [x], q ++ [x, y]] := by
  rw [ancestors_snoc (q ++ [x, y]) (by simp)]
  rw [show (q ++ [x, y]).dropLast = q ++ [x] from by
    rw [show q ++ [x, y] = (q ++ [x]) ++ [y] from by simp]
    exact List.dropLast_concat]
  rw [ancestors_snoc (q ++ [x]) (by simp), List.dropLast_concat]
  simp

theorem filter_true_of_all {α : Type} (p : α → Bool) :
    ∀ l : List α, (∀ a ∈ l, p a = true) → l.filter p = l := by
  intro l
  induction l with
  | nil => intro _; rfl
  | cons a l ih =>
    intro h
    rw [List.filter_cons_of_pos (h a (List.mem_cons_self a l))]
    rw [ih (fun b hb => h b (List.mem_cons_of_mem a hb))]

theorem add_volume_mem_ok (c : Comic) (v : Volume)
    (hnone : lookupA c.volumes v.slug = none)
    (hmem : v.slug ∈ c.volume_slugs) :
    c.add_volume v = .ok { c with volumes := c.volumes ++ [(v.slug, v)] } := by
  unfold Comic.add_volume
  have hn : ¬((lookupA c.volumes v.slug).isSome = true) := by
    rw [hnone]; simp
  rw [if_neg hn, if_pos hmem]

theorem read_pages_empty_spec (vol : Volume) (vp : FPath) (cp : FPath)
    (fs : FS) (hv : vol.path = some vp) (hps : vol.page_slugs = [])
    (hanc : ∀ a ∈ ancestors vp, a ∈ fs.dirs)
    (hfresh : vp ++ ["pages"] ∉ fs.dirs)
    (hlen : ∀ d ∈ fs.dirs, d.length ≤ (vp ++ ["pages"]).length) :
    _read_pages vol cp fs =
      ({ fs with dirs := fs.dirs ++ [vp ++ ["pages"]] }, .ok vol) := by
  unfold _read_pages
  split
  · next heq => rw [hv] at heq; cases heq
  · next vp2 heq =>
    rw [hv] at heq
    injection heq with heq2
    subst heq2
    have hmk : fs.mkdirp (vp ++ ["pages"]) =
        { fs with dirs := fs.dirs ++ [vp ++ ["pages"]] } := by
      apply mkdirp_last_fresh fs (vp ++ ["pages"]) (by simp) ?_ hfresh
      rw [List.dropLast_concat]
      exact hanc
    rw [hmk]
    have hld : ({ fs with dirs := fs.dirs ++ [vp ++ ["pages"]] } :
        FS).listdir (vp ++ ["pages"]) = [] := by
      apply listdir_nil_of_short
      intro d hd
      rcases List.mem_append.1 hd with h1 | h2
      · exact hlen d h1
      · rw [List.mem_singleton.1 h2]
    show stepS (_read_pages_loop
        (({ fs with dirs := fs.dirs ++ [vp ++ ["pages"]] } : FS).listdir
          (vp ++ ["pages"])) vol cp
        { fs with dirs := fs.dirs ++ [vp ++ ["pages"]] }) _ = _
    rw [hld]
    rw [show _read_pages_loop [] vol cp
        { fs with dirs := fs.dirs ++ [vp ++ ["pages"]] } =
        ({ fs with dirs := fs.dirs ++ [vp ++ ["pages"]] }, .ok vol) from rfl]
    rw [stepS_ok]
    have hm : (vol.page_slugs.filter
        (fun s => (lookupA vol.pages s).isNone)) = [] := by
      rw [hps]
      rfl
    simp only [hm]
    rfl

/-- The `(slug, volume)` entry loading a written pageless volume produces. -/
def readEntry (root : FPath) (ti : String × String) : String × Volume :=
  (volKey ti, Volume.init (some (volDir root ti)) ti.1 ti.2 [])

theorem pagesDir_inj (root : FPath) {a b : String × String}
    (h : pagesDir root a = pagesDir root b) : volKey a = volKey b := by
  unfold pagesDir at h
  have h2 : volDir root a = volDir root b := by
    have ha : (volDir root a ++ ["pages"]).dropLast = volDir root a :=
      List.dropLast_concat
    have hb : (volDir root b ++ ["pages"]).dropLast = volDir root b :=
      List.dropLast_concat
    rw [← ha, ← hb, h]
  exact volDir_inj root h2

theorem read_volumes_loop_spec (root : FPath) (name ph : String)
    (slugsAll : List String) :
    ∀ (suf : List (String × String)) (fs : FS)
      (acc : List (String × Volume)),
    (∀ ti ∈ suf, lookupA fs.files (volFilePath root ti) =
      some (.volumeDoc ti.1 ti.2 [])) →
    (∀ ti ∈ suf, (root, stripSlashes ti.2) ∈ fs.assets) →
    (∀ ti ∈ suf, volKey ti ∈ slugsAll) →
    (∀ ti ∈ suf, lookupA acc (volKey ti) = none) →
    (suf.map volKey).Nodup →
    (∀ ti ∈ suf, pagesDir root ti ∉ fs.dirs) →
    (∀ ti ∈ suf, ∀ a ∈ ancestors (volDir root ti), a ∈ fs.dirs) →
    (∀ d ∈ fs.dirs, d.length ≤ root.length + 3) →
    _read_volumes_loop (suf.map (volDir root))
        (Comic.mk (some root) name ph slugsAll acc) root fs =
      ({ fs with dirs := fs.dirs ++ suf.map (pagesDir root) },
       .ok (Comic.mk (some root) name ph slugsAll
         (acc ++ suf.map (readEntry root)))) := by
  intro suf
  induction suf with
  | nil =>
    intro fs acc _ _ _ _ _ _ _ _
    simp only [List.map_nil, List.append_nil]
    rfl
  | cons ti rest ih =>
    intro fs acc hfiles hassets hslug hnotin hnd hdirfresh hanc hlen
    have hmem0 : ti ∈ ti :: rest := List.mem_cons_self ti rest
    have hnd0 : volKey ti ∉ rest.map volKey ∧ (rest.map volKey).Nodup := by
      rw [List.map_cons] at hnd
      exact List.nodup_cons.1 hnd
    rw [List.map_cons]
    unfold _read_volumes_loop
    have hc1 : _read_volume_config (volDir root ti) fs =
        .ok (.volumeDoc ti.1 ti.2 []) := by
      unfold _read_volume_config _try_read_toml
      rw [show volDir root ti ++ ["volume.toml"] = volFilePath root ti
        from rfl]
      rw [hfiles ti hmem0]
    rw [hc1]
    simp only [stepE_ok]
    have hc2 : _volume_from_config (.volumeDoc ti.1 ti.2 [])
        (volDir root ti) root fs =
        .ok (Volume.init (some (volDir root ti)) ti.1 ti.2 []) := by
      show (if validate_asset_exists root ti.2 fs then
          (Except.ok (Volume.init (some (volDir root ti)) ti.1 ti.2 []) :
            Except ScuzzieErr Volume)
        else .error (.volumeConfigError ("Path does not exist: " ++ ti.2)))
        = _
      have hv : validate_asset_exists root ti.2 fs := hassets ti hmem0
      rw [if_pos hv]
    rw [hc2]
    simp only [stepE_ok]
    have hrp : _read_pages (Volume.init (some (volDir root ti)) ti.1 ti.2 [])
        root fs =
        ({ fs with dirs := fs.dirs ++ [volDir root ti ++ ["pages"]] },
         .ok (Volume.init (some (volDir root ti)) ti.1 ti.2 [])) := by
      apply read_pages_empty_spec _ _ _ _ rfl rfl (hanc ti hmem0)
        (hdirfresh ti hmem0)
      intro d hd
      have hdl := hlen d hd
      rw [List.length_append, volDir_length]
      simp only [List.length_singleton]
      omega
    rw [hrp]
    simp only [stepS_ok]
    have hadd : (Comic.mk (some root) name ph slugsAll acc).add_volume
        (Volume.init (some (volDir root ti)) ti.1 ti.2 []) =
        .ok (Comic.mk (some root) name ph slugsAll
          (acc ++ [readEntry root ti])) := by
      rw [add_volume_mem_ok (Comic.mk (some root) name ph slugsAll acc)
        (Volume.init (some (volDir root ti)) ti.1 ti.2 [])
        (hnotin ti hmem0) (hslug ti hmem0)]
      rfl
    rw [hadd]
    simp only [stepE_ok]
    have hB1 : ∀ tj ∈ rest, lookupA
        (FS.mk (fs.dirs ++ [volDir root ti ++ ["pages"]]) fs.files
          fs.assets).files (volFilePath root tj) =
        some (.volumeDoc tj.1 tj.2 []) :=
      fun tj hj => hfiles tj (List.mem_cons_of_mem ti hj)
    have hB4 : ∀ tj ∈ rest,
        lookupA (acc ++ [readEntry root ti]) (volKey tj) = none := by
      intro tj hj
      rw [lookupA_append, hnotin tj (List.mem_cons_of_mem ti hj)]
      show lookupA [readEntry root ti] (volKey tj) = none
      rw [show readEntry root ti = (volKey ti,
        Volume.init (some (volDir root ti)) ti.1 ti.2 []) from rfl]
      rw [lookupA_cons]
      have hne : volKey ti ≠ volKey tj := by
        intro hEq
        exact hnd0.1 (by rw [hEq]; exact List.mem_map_of_mem volKey hj)
      rw [if_neg hne]
      rfl
    have hB6 : ∀ tj ∈ rest, pagesDir root tj ∉
        fs.dirs ++ [volDir root ti ++ ["pages"]] := by
      intro tj hj hm
      rcases List.mem_append.1 hm with h1 | h2
      · exact hdirfresh tj (List.mem_cons_of_mem ti hj) h1
      · have hkey := pagesDir_inj root
          (List.mem_singleton.1 h2 : pagesDir root tj = pagesDir root ti)
        exact hnd0.1 (hkey ▸ List.mem_map_of_mem volKey hj)
    have hB7 : ∀ tj ∈ rest, ∀ a ∈ ancestors (volDir root tj),
        a ∈ fs.dirs ++ [volDir root ti ++ ["pages"]] :=
      fun tj hj a ha => List.mem_append_left _
        (hanc tj (List.mem_cons_of_mem ti hj) a ha)
    have hB8 : ∀ d ∈ fs.dirs ++ [volDir root ti ++ ["pages"]],
        d.length ≤ root.length + 3 := by
      intro d hd
      rcases List.mem_append.1 hd with h1 | h2
      · exact hlen d h1
      · rw [List.mem_singleton.1 h2, List.length_append, volDir_length]
        simp
    rw [ih (FS.mk (fs.dirs ++ [volDir root ti ++ ["pages"]]) fs.files
        fs.assets) (acc ++ [readEntry root ti])
      hB1
      (fun tj hj => hassets tj (List.mem_cons_of_mem ti hj))
      (fun tj hj => hslug tj (List.mem_cons_of_mem ti hj))
      hB4
      hnd0.2
      hB6
      hB7
      hB8]
    simp [List.append_assoc, pagesDir]

theorem pagesDir_length (root : FPath) (ti : String × String) :
    (pagesDir root ti).length = root.length + 3 := by
  simp [pagesDir, volDir]

theorem read_comic_spec (root : FPath) (name ph : String)
    (vols : List (String × String)) (assets : List (FPath × String))
    (hnd : (vols.map volKey).Nodup)
    (hph : (root, stripSlashes ph) ∈ assets)
    (himg : ∀ ti ∈ vols, (root, stripSlashes ti.2) ∈ assets) :
    (read_comic root (writeFS root name ph vols assets)).2 =
      .ok (Comic.mk (some root) name ph (vols.map volKey)
        (vols.map (readEntry root))) := by
  have hfiles_eq : (writeFS root name ph vols assets).files =
      (root ++ ["comic.toml"], Doc.comicDoc name ph (vols.map volKey)) ::
        vols.map (volFile root) := rfl
  have hassets_eq : (writeFS root name ph vols assets).assets = assets := rfl
  have hcomicne : ∀ tj : String × String,
      root ++ ["comic.toml"] ≠ volFilePath root tj := by
    intro tj
    rw [volFilePath_eq]
    exact app_ne_of_ne root (by simp)
  have h1 : _read_comic_config root (writeFS root name ph vols assets) =
      .ok (.comicDoc name ph (vols.map volKey)) := by
    unfold _read_comic_config _try_read_toml
    rw [hfiles_eq, lookupA_cons, if_pos rfl]
  have h2 : _comic_from_config (.comicDoc name ph (vols.map volKey)) root
      (writeFS root name ph vols assets) =
      .ok (Comic.mk (some root) name ph (vols.map volKey) []) := by
    show (if validate_asset_exists root ph (writeFS root name ph vols assets)
        then (Except.ok (Comic.mk (some root) name ph (vols.map volKey) []) :
            Except ScuzzieErr Comic)
        else .error (.comicConfigError ("Path does not exist: " ++ ph))) = _
    have hv : validate_asset_exists root ph
        (writeFS root name ph vols assets) := by
      show (root, stripSlashes ph) ∈ (writeFS root name ph vols assets).assets
      rw [hassets_eq]
      exact hph
    rw [if_pos hv]
  have h3 : read_comic root (writeFS root name ph vols assets) =
      _read_volumes (Comic.mk (some root) name ph (vols.map volKey) []) root
        (writeFS root name ph vols assets) := by
    unfold read_comic
    rw [h1]
    simp only [stepE_ok]
    rw [h2]
    simp only [stepE_ok]
  rw [h3]
  unfold _read_volumes
  show ((_read_volumes_loop
    (((writeFS root name ph vols assets).mkdirp
        (root ++ ["volumes"])).listdir (root ++ ["volumes"]))
    (Comic.mk (some root) name ph (vols.map volKey) []) root
    ((writeFS root name ph vols assets).mkdirp (root ++ ["volumes"]))).2) = _
  rcases vols with _ | ⟨ti0, rest⟩
  · have hdirs0 : (writeFS root name ph [] assets).dirs =
        ancestors root ++ [] := rfl
    have hmk : (writeFS root name ph [] assets).mkdirp (root ++ ["volumes"]) =
        { writeFS root name ph [] assets with
          dirs := (writeFS root name ph [] assets).dirs ++
            [root ++ ["volumes"]] } := by
      apply mkdirp_last_fresh _ _ (by simp)
      · rw [List.dropLast_concat]
        intro a ha
        rw [hdirs0]
        exact List.mem_append_left _ ha
      · intro hm
        rw [hdirs0] at hm
        rcases List.mem_append.1 hm with h1 | h2
        · exact not_mem_ancestors_of_longer (by simp) h1
        · exact (List.not_mem_nil _) h2
    rw [hmk]
    have hld : ({ writeFS root name ph [] assets with
        dirs := (writeFS root name ph [] assets).dirs ++
          [root ++ ["volumes"]] } : FS).listdir (root ++ ["volumes"]) = [] := by
      apply listdir_nil_of_short
      intro d hd
      rcases List.mem_append.1 hd with h1 | h2
      · rw [hdirs0] at h1
        rcases List.mem_append.1 h1 with h3 | h4
        · have := ancestors_length_le root d h3
          simp only [List.length_append, List.length_cons,
            List.length_nil]
          omega
        · exact absurd h4 (List.not_mem_nil d)
      · rw [List.mem_singleton.1 h2]
    rw [hld]
    rfl
  · have hdirs_eq : (writeFS root name ph (ti0 :: rest) assets).dirs =
        ancestors root ++
          ((root ++ ["volumes"]) :: (ti0 :: rest).map (volDir root)) := rfl
    have hmk : (writeFS root name ph (ti0 :: rest) assets).mkdirp
        (root ++ ["volumes"]) = writeFS root name ph (ti0 :: rest) assets := by
      apply mkdirp_all_mem
      rw [ancestors_snoc (root ++ ["volumes"]) (by simp),
        List.dropLast_concat]
      intro a ha
      rcases List.mem_append.1 ha with h1 | h2
      · rw [hdirs_eq]
        exact List.mem_append_left _ h1
      · rw [hdirs_eq, List.mem_singleton.1 h2]
        exact List.mem_append_right _ (List.mem_cons_self _ _)
    rw [hmk]
    have hf1 : (ancestors root).filter
        (fun d => d.length = (root ++ ["volumes"]).length + 1 &&
          decide (d.take (root ++ ["volumes"]).length = root ++ ["volumes"]))
        = [] := by
      rw [List.filter_eq_nil_iff]
      intro a ha
      have hle := ancestors_length_le root a ha
      simp only [Bool.and_eq_true, decide_eq_true_eq, not_and,
        List.length_append, List.length_cons, List.length_nil]
      intro hc
      omega
    have hftrue : ((ti0 :: rest).map (volDir root)).filter
        (fun d => d.length = (root ++ ["volumes"]).length + 1 &&
          decide (d.take (root ++ ["volumes"]).length = root ++ ["volumes"]))
        = (ti0 :: rest).map (volDir root) := by
      apply filter_true_of_all
      intro a ha
      obtain ⟨tj, htj, rfl⟩ := List.mem_map.1 ha
      simp only [Bool.and_eq_true, decide_eq_true_eq]
      constructor
      · rw [volDir_length]
        simp
      · show (volDir root tj).take (root ++ ["volumes"]).length =
          root ++ ["volumes"]
        rw [show (root ++ ["volumes"]).length = root.length + 1 from by simp]
        unfold volDir
        exact take_append_two root "volumes" (volKey tj)
    have hld : (writeFS root name ph (ti0 :: rest) assets).listdir
        (root ++ ["volumes"]) = (ti0 :: rest).map (volDir root) := by
      unfold FS.listdir
      rw [hdirs_eq, List.filter_append, hf1, List.filter_cons_of_neg,
        hftrue]
      · simp
      · simp
    rw [hld]
    have hvolsNodup : (ti0 :: rest).Nodup := List.Nodup.of_map volKey hnd
    have hvolsInj := List.inj_on_of_nodup_map hnd
    have hndkeys : (((ti0 :: rest).map (volFile root)).map Prod.fst).Nodup
        := by
      have he : ((ti0 :: rest).map (volFile root)).map Prod.fst =
          (ti0 :: rest).map (volFilePath root) := by
        rw [List.map_map]
        rfl
      rw [he]
      exact List.Nodup.map_on
        (fun x hx y hy hf => hvolsInj hx hy (volFilePath_inj root hf))
        hvolsNodup
  
    have hfiles : ∀ tj ∈ (ti0 :: rest),
        lookupA (writeFS root name ph (ti0 :: rest) assets).files
          (volFilePath root tj) = some (.volumeDoc tj.1 tj.2 []) := by
      intro tj hj
      rw [hfiles_eq, lookupA_cons, if_neg (hcomicne tj)]
      exact lookupA_self_of_nodup ((ti0 :: rest).map (volFile root)) hndkeys
        (volFile root tj) (List.mem_map_of_mem _ hj)
    have hdirfresh : ∀ tj ∈ (ti0 :: rest), pagesDir root tj ∉
        (writeFS root name ph (ti0 :: rest) assets).dirs := by
      intro tj hj hm
      rw [hdirs_eq] at hm
      rcases List.mem_append.1 hm with h1 | h2
      · exact not_mem_ancestors_of_longer
          (by rw [pagesDir_length]; omega) h1
      · rcases List.mem_cons.1 h2 with h3 | h4
        · have hl := congrArg List.length h3
          rw [pagesDir_length] at hl
          simp at hl
        · obtain ⟨tk, _, hk⟩ := List.mem_map.1 h4
          have hl := congrArg List.length hk.symm
          rw [pagesDir_length, volDir_length] at hl
          omega
    have hanc : ∀ tj ∈ (ti0 :: rest), ∀ a ∈ ancestors (volDir root tj),
        a ∈ (writeFS root name ph (ti0 :: rest) assets).dirs := by
      intro tj hj a ha
      rw [show volDir root tj = root ++ ["volumes", volKey tj] from rfl,
        ancestors_app2 root "volumes" (volKey tj)] at ha
      rw [hdirs_eq]
      rcases List.mem_append.1 ha with h1 | h2
      · exact List.mem_append_left _ h1
      · rcases List.mem_cons.1 h2 with h3 | h4
        · rw [h3]
          exact List.mem_append_right _ (List.mem_cons_self _ _)
        · rw [List.mem_singleton.1 h4]
          exact List.mem_append_right _ (List.mem_cons_of_mem _
            (List.mem_map_of_mem (volDir root) hj))
    have hlen : ∀ d ∈ (writeFS root name ph (ti0 :: rest) assets).dirs,
        d.length ≤ root.length + 3 := by
      intro d hd
      rw [hdirs_eq] at hd
      rcases List.mem_append.1 hd with h1 | h2
      · have := ancestors_length_le root d h1
        omega
      · rcases List.mem_cons.1 h2 with h3 | h4
        · rw [h3]
          simp
        · obtain ⟨tk, _, hk⟩ := List.mem_map.1 h4
          rw [← hk, volDir_length]
          omega
    rw [read_volumes_loop_spec root name ph ((ti0 :: rest).map volKey)
      (ti0 :: rest) (writeFS root name ph (ti0 :: rest) assets) []
      hfiles
      (fun tj hj => himg tj hj)
      (fun tj hj => List.mem_map_of_mem volKey hj)
      (fun tj hj => rfl)
      hnd
      hdirfresh
      hanc
      hlen]
    simp

/-- C1 (amended): the save/load round trip holds for a freshly constructed
comic with N volumes created via `create_volume` and no pages: writing into a
fresh explicit target directory succeeds, and reading that directory back
yields a comic with the same `volume_slugs` and, per slug, a volume with the
same title, image and (empty) `page_slugs`.  With M ≥ 1 pages per volume the
round trip fails at the write: `_write_page` refuses pages whose volume is
virtual (`path` is `None`), which every `create_volume`-made volume is — see
the counterexample. -/
theorem C1_roundtrip_pageless (root : FPath) (name ph : String)
    (vols : List (String × String)) (assets : List (FPath × String))
    (c : Comic)
    (hbuild : buildVolumes (Comic.init none name ph []) vols = .ok c)
    (hph : (root, stripSlashes ph) ∈ assets)
    (himg : ∀ ti ∈ vols, (root, stripSlashes ti.2) ∈ assets) :
    ∃ c1 fs1 fs2 c2,
      write_comic c (some root) (FS.mk [] [] assets) = (c1, fs1, .ok ()) ∧
      read_comic root fs1 = (fs2, .ok c2) ∧
      c2.volume_slugs = c.volume_slugs ∧
      c2.volumes.map (fun e => (e.1, e.2.title, e.2.image, e.2.page_slugs)) =
        c.volumes.map (fun e => (e.1, e.2.title, e.2.image, e.2.page_slugs))
    := by
  obtain ⟨hc, hnotin, hnd⟩ :=
    buildVolumes_ok vols (Comic.init none name ph []) c rfl hbuild
  have hceq : c = builtComic name ph vols := by
    rw [hc]
    unfold builtComic volEntry
    simp [Comic.init]
  subst hceq
  have hw := write_comic_spec root name ph vols assets hnd hph himg
  have hr := read_comic_spec root name ph vols assets hnd hph himg
  refine ⟨builtComicAt root name ph vols, writeFS root name ph vols assets,
    (read_comic root (writeFS root name ph vols assets)).1,
    Comic.mk (some root) name ph (vols.map volKey)
      (vols.map (readEntry root)),
    hw, ?_, rfl, ?_⟩
  · have hpair : read_comic root (writeFS root name ph vols assets) =
        ((read_comic root (writeFS root name ph vols assets)).1,
         (read_comic root (writeFS root name ph vols assets)).2) := rfl
    rw [hpair, hr]
  · simp only [builtComic]
    rw [List.map_map, List.map_map]
    rfl

/-- C1 counterexample: with N = 1 volume and M = 1 page, both created
virtually, `write_comic` into an explicit target fails with
`ScuzzieVolumeConfigError` (the page's volume is virtual), so the claimed
write-then-read round trip is false as soon as M ≥ 1. -/
theorem C1_counterexample :
    (((Comic.init none "comic" "ph.png" []).create_volume "Volume One"
        "img.png").bind
      (fun cv => ((cv.1.create_page "Page One" none cv.2).map
        (fun vp => (write_comic (cv.1.setVolume vp.1) (some ["tgt"])
          (FS.mk [] []
            [(["tgt"], "ph.png"), (["tgt"], "img.png")])).2.2))))
    = .ok (.error (.volumeConfigError
        "Tried to save page into null volume or volume with a null path."))
    := by rfl

/-- Concrete two-volume comic for the C1 witness. -/
def c1Comic : Comic :=
  Comic.mk none "comic" "ph"
    ["volume-one", "volume-two"]
    [("volume-one", Volume.mk none "Volume One" "volume-one" "a.png" [] []),
     ("volume-two", Volume.mk none "Volume Two" "volume-two" "b.png" [] [])]

/-- Concrete asset oracle for the C1 witness. -/
def c1Assets : List (FPath × String) :=
  [(["tgt"], "ph"), (["tgt"], "a.png"), (["tgt"], "b.png")]

/-- Witness for C1 at two concrete volumes. -/
theorem C1_roundtrip_pageless_witness :
    ∃ c1 fs1 fs2 c2,
      write_comic c1Comic (some ["tgt"]) (FS.mk [] [] c1Assets)
        = (c1, fs1, .ok ()) ∧
      read_comic ["tgt"] fs1 = (fs2, .ok c2) ∧
      c2.volume_slugs = c1Comic.volume_slugs ∧
      c2.volumes.map (fun e => (e.1, e.2.title, e.2.image, e.2.page_slugs)) =
        c1Comic.volumes.map
          (fun e => (e.1, e.2.title, e.2.image, e.2.page_slugs)) :=
  C1_roundtrip_pageless ["tgt"] "comic" "ph"
    [("Volume One", "a.png"), ("Volume Two", "b.png")] c1Assets c1Comic
    (by rfl) (by decide) (by decide)

end Scuzzie
